import Mathlib

/-!
# pokemon-sdk: cache-backed fetch-and-decode pipeline and paginated cursors

A shallow embedding of `client.go`, `cache.go` and `pokemon.go`.

* Go `error` values are the inductive type `GoError`; a returned pair
  `(value, err)` is an `Except GoError value` (Go returns the nil value with an error).
* `[]byte` is `String`.
* Go `int` is `Int` wrapped to 64 bits by `wrapInt` after every arithmetic operation.
* The standard library and go-cache are outside the repository.  The HTTP
  transport is the oracle `HttpClient`, `json.Unmarshal` is the field `Unmarshal`
  of `Target`, and the go-cache store is a map from keys to items with an expiry
  instant, seen through its lookup function.
* Time is the value `time.Now().UnixNano()` reads; a call that touches the cache
  takes a `Clock` with the instant read by the lookup and the instant read by the
  write.  The janitor of go-cache, which deletes expired items in the background,
  is left out: a lookup does not return an expired item whether or not it was
  deleted.
* The network is observed through the list of URLs handed to `httpClient.Do`,
  oldest first; every operation takes that list and returns the extended one.
-/

namespace pokemon

/-! ## Errors -/

/-- Go error values that the package produces or passes on. -/
inductive GoError where
  /-- A package-level error variable, compared by identity (its name here). -/
  | sentinel (name : String)
  /-- The value of `fmt.Errorf(msg)` with no `%w` verb. -/
  | errorf (msg : String)
  /-- The value of `fmt.Errorf(msg ++ ": %w", cause)`; `Unwrap` gives `cause`. -/
  | wrapf (msg : String) (cause : GoError)
  /-- An error made by net/http, io or encoding/json; it wraps nothing of this package. -/
  | external (desc : String)
  deriving DecidableEq, Repr

/-- Modelled from the spec: the sentinel `model.ErrNotFound`, whose declaration is not
in the source files at hand; the spec asks that callers tell it apart by an
identity check, so it is a package-level error variable. -/
def model.ErrNotFound : GoError := GoError.sentinel "model.ErrNotFound"

/-- The sentinel `io.EOF`. -/
def io.EOF : GoError := GoError.sentinel "io.EOF"

/-- The function `errors.Is(err, target)`: walk the `Unwrap` chain of `err` and compare
every link with `target`. -/
def errorsIs : GoError → GoError → Bool
  | GoError.wrapf msg cause, target =>
      decide (GoError.wrapf msg cause = target) || errorsIs cause target
  | err, target => decide (err = target)

/-! ## Machine integers -/

/-- Wrap an integer to the range of Go's 64-bit `int`. -/
def wrapInt (x : Int) : Int := (x + 2 ^ 63) % 2 ^ 64 - 2 ^ 63

/-- The values a Go `int` can hold. -/
def inInt (x : Int) : Prop := -(2 ^ 63) ≤ x ∧ x < 2 ^ 63

instance (x : Int) : Decidable (inInt x) := by unfold inInt; infer_instance

/-! ## The cache (`cache.go`)

The store behind `Cache` is go-cache, a dependency: `cache.New(ttl, ttl)` keeps `ttl` as
the default expiry (`-1`, no expiry, for zero), `Set(k, x, 0)` stores the item with the
expiry instant `now + ttl` when the default expiry is positive and with no expiry
otherwise, and `Get(k)` does not find an item whose expiry instant is positive and
earlier than now. -/

/-- The byte slices of the program. -/
abbrev Bytes := String

/-- An `Item` of go-cache: the stored object and the instant it expires at, in
nanoseconds; an expiry that is not positive means the item never expires. -/
structure Item where
  Object : Bytes
  Expiration : Int
  deriving DecidableEq, Repr

/-- The wrapper `Cache` around the go-cache store: the default expiry the store was built
with and its items. -/
structure Cache where
  defaultExpiration : Int
  items : String → Option Item

/-- The function `NewCache(ttl)`: `cache.New(ttl, ttl)`, a store with no item whose
default expiry is `ttl`, or `-1` (no expiry) when `ttl` is zero. -/
def NewCache (ttl : Int) : Cache :=
  ⟨if ttl = 0 then -1 else ttl, fun _ => none⟩

/-- The method `GetResponseBodyForURL` called at the instant `now`: the stored bytes, or
nil (`none`) when there is no item or the item has expired. -/
def Cache.GetResponseBodyForURL (c : Cache) (now : Int) (url : String) : Option Bytes :=
  match c.items url with
  | none => none
  | some item =>
      if item.Expiration > 0 ∧ now > item.Expiration then none else some item.Object

/-- The method `CacheResponseForURL` called at the instant `now`:
`c.cache.Set(url, data, 0)`, which stores the item with the default expiry of the store:
`now + defaultExpiration` when that duration is positive, never otherwise. -/
def Cache.CacheResponseForURL (c : Cache) (now : Int) (url : String) (data : Bytes) :
    Cache :=
  { c with
    items := fun k =>
      if k = url then
        some ⟨data, if c.defaultExpiration > 0 then now + c.defaultExpiration else 0⟩
      else c.items k }

/-- The instants `time.Now()` reads during one call that touches the cache: at the cache
lookup and, later, at the cache write. -/
structure Clock where
  load : Int
  save : Int
  deriving DecidableEq, Repr

/-! ## The HTTP transport -/

/-- An `*http.Response`: its status code and what `io.ReadAll(resp.Body)` returns. -/
structure Response where
  StatusCode : Int
  Body : Except GoError Bytes

/-- The `*http.Client` together with the context and the server behind it.
`NewRequest url` is the error of `http.NewRequestWithContext(ctx, GET, url, nil)`, if any;
`Do sent url` is the outcome of `httpClient.Do(req)` when `sent` lists the requests made
before. -/
structure HttpClient where
  NewRequest : String → Option GoError
  Do : List String → String → Except GoError Response

/-! ## The client (`client.go`) -/

/-- The struct `client`; `cache = none` is the nil pointer (caching disabled). -/
structure client where
  baseURL : String
  httpClient : HttpClient
  cache : Option Cache

/-- A decode target type `T` of `json.Unmarshal`: the zero value of `var result T` and
`json.Unmarshal(data, &v)`, which takes the value held by `v` and returns the value it
leaves there together with its error, if any. -/
structure Target (α : Type) where
  zero : α
  Unmarshal : Bytes → α → α × Option GoError

/-- What a call leaves behind: the returned pair, `c.cache` after the call and the
requests sent so far. -/
structure Outcome (α : Type) where
  ret : Except GoError α
  cache : Option Cache
  net : List String

/-- The method `fetchFromURL`: the returned pair and the requests sent so far. (When
`io.ReadAll` fails Go returns the bytes read so far with the error; no caller reads
them.) -/
def client.fetchFromURL (c : client) (net : List String) (url : String) :
    Except GoError Bytes × List String :=
  match c.httpClient.NewRequest url with
  | some err => (Except.error (GoError.wrapf "failed to create request" err), net)
  | none =>
    match c.httpClient.Do net url with
    | Except.error err =>
        (Except.error (GoError.wrapf "failed to send request" err), net ++ [url])
    | Except.ok resp =>
        if resp.StatusCode ≠ 200 then
          if resp.StatusCode = 404 then
            (Except.error model.ErrNotFound, net ++ [url])
          else
            (Except.error (GoError.errorf "something went wrong"), net ++ [url])
        else
          (resp.Body, net ++ [url])

/-- The method `loadFromCache(url, &v)` called at the instant `now`: the value left in `v`
and the returned error. -/
def client.loadFromCache {α : Type} (c : client) (T : Target α) (now : Int) (url : String)
    (v : α) : α × Option GoError :=
  match c.cache with
  | none => (v, some (GoError.errorf "cache disabled"))
  | some cache =>
    match cache.GetResponseBodyForURL now url with
    | none => (v, some (GoError.errorf "cache miss"))
    | some data => T.Unmarshal data v

/-- The method `saveToCache` called at the instant `now`: `c.cache` after the call. -/
def client.saveToCache (c : client) (now : Int) (url : String) (data : Bytes) :
    Option Cache :=
  match c.cache with
  | some cache => some (cache.CacheResponseForURL now url data)
  | none => none

/-- The lookup → fetch → decode → store body shared, line for line, by
`GetPokemonByIDOrName` and `GetGenerationByIDOrName`, which differ in the URL only. -/
def client.getByURL {α : Type} (c : client) (T : Target α) (net : List String)
    (t : Clock) (url : String) : Outcome α :=
  match c.loadFromCache T t.load url T.zero with
  | (result, none) => ⟨Except.ok result, c.cache, net⟩
  | (result, some _) =>
    match c.fetchFromURL net url with
    | (Except.error err, net1) =>
        ⟨Except.error (GoError.wrapf "failed to fetch generation" err), c.cache, net1⟩
    | (Except.ok body, net1) =>
      match T.Unmarshal body result with
      | (_, some err) =>
          ⟨Except.error (GoError.wrapf "failed to unmarshal response" err), c.cache, net1⟩
      | (result1, none) => ⟨Except.ok result1, c.saveToCache t.save url body, net1⟩

/-- The URL of `GetPokemonByIDOrName`: `fmt.Sprintf("%s/pokemon/%s", c.baseURL, idOrName)`. -/
def client.pokemonURL (c : client) (idOrName : String) : String :=
  c.baseURL ++ "/pokemon/" ++ idOrName

/-- The URL of `GetGenerationByIDOrName`:
`fmt.Sprintf("%s/generation/%s", c.baseURL, idOrName)`. -/
def client.generationURL (c : client) (idOrName : String) : String :=
  c.baseURL ++ "/generation/" ++ idOrName

/-- The method `GetPokemonByIDOrName`, for the decode target `model.Pokemon`. -/
def client.GetPokemonByIDOrName {α : Type} (c : client) (T : Target α) (net : List String)
    (t : Clock) (idOrName : String) : Outcome α :=
  c.getByURL T net t (c.pokemonURL idOrName)

/-- The method `GetGenerationByIDOrName`, for the decode target `model.Generation`. -/
def client.GetGenerationByIDOrName {α : Type} (c : client) (T : Target α)
    (net : List String) (t : Clock) (idOrName : String) : Outcome α :=
  c.getByURL T net t (c.generationURL idOrName)

/-! ## List retrieval (`client.go`) -/

/-- The struct `model.NamedResource`. -/
structure NamedResource where
  Name : String
  URL : String
  deriving DecidableEq, Repr

/-- The local struct `response` of the two list methods. -/
structure response where
  Count : Int
  Results : List NamedResource
  deriving DecidableEq, Repr

/-- The zero value of `var resp response`. -/
def response.zero : response := ⟨0, []⟩

/-- The loop `for i, res := range resp.Results { names[i] = res.Name }` run on
`names = make([]string, len(resp.Results))`. -/
def fillNames (results : List NamedResource) : List String :=
  results.enum.foldl (fun names ir => names.set ir.1 ir.2.Name)
    (List.replicate results.length "")

/-- The URL of `GetPokemonNamesList`:
`fmt.Sprintf("%s/pokemon?limit=%d&offset=%d", c.baseURL, limit, offset)`. -/
def client.pokemonListURL (c : client) (limit offset : Int) : String :=
  c.baseURL ++ "/pokemon?limit=" ++ toString limit ++ "&offset=" ++ toString offset

/-- The URL of `GetGenerationNamesList`:
`fmt.Sprintf("%s/generation?limit=%d&offset=%d", c.baseURL, limit, offset)`. -/
def client.generationListURL (c : client) (limit offset : Int) : String :=
  c.baseURL ++ "/generation?limit=" ++ toString limit ++ "&offset=" ++ toString offset

/-- The fetch → decode → extract body shared, line for line, by `GetPokemonNamesList` and
`GetGenerationNamesList`, which differ in the URL only.  The result is `(names, hasMore)`
or the error. -/
def client.namesListFromURL (c : client) (L : Target response) (net : List String)
    (url : String) (limit offset : Int) : Outcome (List String × Bool) :=
  match c.fetchFromURL net url with
  | (Except.error err, net1) =>
      ⟨Except.error (GoError.wrapf "failed to fetch generation" err), c.cache, net1⟩
  | (Except.ok body, net1) =>
    match L.Unmarshal body response.zero with
    | (_, some err) =>
        ⟨Except.error (GoError.wrapf "failed to unmarshal response" err), c.cache, net1⟩
    | (resp, none) =>
        let hasMore := decide (resp.Count > wrapInt (offset + limit))
        let names := fillNames resp.Results
        ⟨Except.ok (names, hasMore), c.cache, net1⟩

/-- The method `GetPokemonNamesList`. -/
def client.GetPokemonNamesList (c : client) (L : Target response) (net : List String)
    (limit offset : Int) : Outcome (List String × Bool) :=
  c.namesListFromURL L net (c.pokemonListURL limit offset) limit offset

/-- The method `GetGenerationNamesList`. -/
def client.GetGenerationNamesList (c : client) (L : Target response) (net : List String)
    (limit offset : Int) : Outcome (List String × Bool) :=
  c.namesListFromURL L net (c.generationListURL limit offset) limit offset

/-! ## Cursors (`pokemon.go`) -/

/-- The struct `Resolver`. -/
structure Resolver where
  client : client

/-- The struct `List` of `pokemon.go` (Lean's lists own the name `List`). -/
structure ListState where
  page : Int
  pageSize : Int
  limit : Int
  done : Bool
  deriving DecidableEq, Repr

/-- The struct `PokemonList`: a resolver and the embedded `List`. -/
structure PokemonList extends ListState where
  resolver : Resolver

/-- The struct `GenerationList`: a resolver and the embedded `List`. -/
structure GenerationList extends ListState where
  resolver : Resolver

/-- The method `Resolver.PokemonList(page, pageSize)`. -/
def Resolver.PokemonList (r : Resolver) (page pageSize : Int) : PokemonList :=
  { resolver := r, page := page, pageSize := pageSize, limit := 0, done := false }

/-- The method `Resolver.GenerationList(page, pageSize)`. -/
def Resolver.GenerationList (r : Resolver) (page pageSize : Int) : GenerationList :=
  { resolver := r, page := page, pageSize := pageSize, limit := 0, done := false }

/-- The method `Resolver.getPokemonNames`. -/
def Resolver.getPokemonNames (r : Resolver) (L : Target response) (net : List String)
    (limit offset : Int) : Outcome (List String × Bool) :=
  r.client.GetPokemonNamesList L net limit offset

/-- The method `Resolver.getGenerationNames`. -/
def Resolver.getGenerationNames (r : Resolver) (L : Target response) (net : List String)
    (limit offset : Int) : Outcome (List String × Bool) :=
  r.client.GetGenerationNamesList L net limit offset

/-- What a cursor method leaves behind: the returned pair, the cursor's embedded `List`
after the call and the requests sent so far. -/
structure CursorOutcome where
  ret : Except GoError (List String)
  list : ListState
  net : List String

/-- The offset expression `(l.page-1)*l.pageSize` of the cursor methods. -/
def ListState.offset (l : ListState) : Int :=
  wrapInt (wrapInt (l.page - 1) * l.pageSize)

/-- The body of `Next` after the list fetch `fetched` has been made. -/
def ListState.afterFetch (l : ListState) (fetched : Outcome (List String × Bool)) :
    CursorOutcome :=
  match fetched.ret with
  | Except.error err => ⟨Except.error err, l, fetched.net⟩
  | Except.ok (names, hasMore) =>
      if !hasMore then
        ⟨Except.ok names, { l with done := true }, fetched.net⟩
      else
        ⟨Except.ok names, { l with page := wrapInt (l.page + 1) }, fetched.net⟩

/-- The method `PokemonList.Next`. -/
def PokemonList.Next (l : PokemonList) (L : Target response) (net : List String) :
    CursorOutcome :=
  if l.done then
    ⟨Except.error io.EOF, l.toListState, net⟩
  else
    l.toListState.afterFetch
      (l.resolver.getPokemonNames L net l.pageSize l.toListState.offset)

/-- The method `GenerationList.Next`. -/
def GenerationList.Next (l : GenerationList) (L : Target response) (net : List String) :
    CursorOutcome :=
  if l.done then
    ⟨Except.error io.EOF, l.toListState, net⟩
  else
    l.toListState.afterFetch
      (l.resolver.getGenerationNames L net l.pageSize l.toListState.offset)

/-- The method `PokemonList.GetWithContext` (and `Get`, which calls it). -/
def PokemonList.GetWithContext (l : PokemonList) (L : Target response)
    (net : List String) : CursorOutcome :=
  let fetched := l.resolver.getPokemonNames L net l.pageSize l.toListState.offset
  match fetched.ret with
  | Except.error err => ⟨Except.error err, l.toListState, fetched.net⟩
  | Except.ok (names, _) => ⟨Except.ok names, l.toListState, fetched.net⟩

/-- The method `GenerationList.GetWithContext` (and `Get`, which calls it). -/
def GenerationList.GetWithContext (l : GenerationList) (L : Target response)
    (net : List String) : CursorOutcome :=
  let fetched := l.resolver.getGenerationNames L net l.pageSize l.toListState.offset
  match fetched.ret with
  | Except.error err => ⟨Except.error err, l.toListState, fetched.net⟩
  | Except.ok (names, _) => ⟨Except.ok names, l.toListState, fetched.net⟩

/-! ## A concrete decoder

`json.Unmarshal` belongs to encoding/json.  The theorems below take it as the field
`Unmarshal` of a `Target`; the concrete inputs are run with the decoder of this section,
which follows encoding/json on a fragment of JSON: objects, arrays, strings without
escapes and integers, with no white space, whose members are named exactly as the fields
of the target.  Every other document is rejected, as a syntax error is: the target is
left as it was. -/

/-- A JSON value of the fragment. -/
inductive JValue where
  | num (n : Int)
  | str (s : String)
  | arr (items : List JValue)
  | obj (fields : List (String × JValue))
  deriving Repr

/-- The characters of a string literal up to its closing quote, and the rest. -/
def parseChars : List Char → Option (List Char × List Char)
  | [] => none
  | c :: rest =>
    if c = '"' then some ([], rest)
    else if c = '\\' ∨ c.toNat < 32 then none
    else
      match parseChars rest with
      | some (s, r) => some (c :: s, r)
      | none => none

/-- The number written by decimal digits. -/
def digitsValue (ds : List Char) : Nat :=
  ds.foldl (fun acc d => 10 * acc + (d.toNat - 48)) 0

/-- A JSON natural number (no leading zero), and the rest. -/
def parseNat (cs : List Char) : Option (Nat × List Char) :=
  match cs.span Char.isDigit with
  | ([], _) => none
  | ('0' :: _ :: _, _) => none
  | (ds, rest) => some (digitsValue ds, rest)

mutual
/-- A value, and the rest of the input. -/
def parseValue : Nat → List Char → Option (JValue × List Char)
  | 0, _ => none
  | fuel + 1, cs =>
    match cs with
    | '"' :: rest =>
      match parseChars rest with
      | some (s, r) => some (JValue.str (String.mk s), r)
      | none => none
    | '[' :: ']' :: rest => some (JValue.arr [], rest)
    | '[' :: rest =>
      match parseItems fuel rest with
      | some (items, r) => some (JValue.arr items, r)
      | none => none
    | '{' :: '}' :: rest => some (JValue.obj [], rest)
    | '{' :: rest =>
      match parseFields fuel rest with
      | some (fields, r) => some (JValue.obj fields, r)
      | none => none
    | '-' :: rest =>
      match parseNat rest with
      | some (n, r) => some (JValue.num (-(n : Int)), r)
      | none => none
    | _ =>
      match parseNat cs with
      | some (n, r) => some (JValue.num n, r)
      | none => none
/-- The items of an array after its opening bracket, and the rest. -/
def parseItems : Nat → List Char → Option (List JValue × List Char)
  | 0, _ => none
  | fuel + 1, cs =>
    match parseValue fuel cs with
    | some (v, ',' :: rest) =>
      match parseItems fuel rest with
      | some (vs, r) => some (v :: vs, r)
      | none => none
    | some (v, ']' :: rest) => some ([v], rest)
    | _ => none
/-- The fields of an object after its opening brace, and the rest. -/
def parseFields : Nat → List Char → Option (List (String × JValue) × List Char)
  | 0, _ => none
  | fuel + 1, cs =>
    match cs with
    | '"' :: rest =>
      match parseChars rest with
      | some (k, ':' :: rest1) =>
        match parseValue fuel rest1 with
        | some (v, ',' :: rest2) =>
          match parseFields fuel rest2 with
          | some (fs, r) => some ((String.mk k, v) :: fs, r)
          | none => none
        | some (v, '}' :: rest2) => some ([(String.mk k, v)], rest2)
        | _ => none
      | _ => none
    | _ => none
end

/-- A whole document of the fragment. -/
def parseJSON (data : Bytes) : Option JValue :=
  match parseValue (data.length + 1) data.data with
  | some (v, []) => some v
  | _ => none

/-- The error encoding/json returns for a document it cannot read (here also: a document
outside the fragment). -/
def jsonSyntaxError : GoError := GoError.external "json: invalid document"

/-- An `*json.UnmarshalTypeError` for the named field. -/
def jsonTypeError (field : String) : GoError :=
  GoError.external ("json: cannot unmarshal value into Go struct field " ++ field)

/-- The fields `ID` and `Name` with which both `model.Pokemon` and `model.Generation`
begin; documents naming another field are outside the fragment. -/
structure IdName where
  ID : Int
  Name : String
  deriving DecidableEq, Repr

/-- Store one object member into the struct: a value of the wrong type (or a number that
does not fit an `int`) leaves the field alone and records the error if it is the first;
decoding goes on with the next member. -/
def IdName.store (acc : IdName × Option GoError) (kv : String × JValue) :
    IdName × Option GoError :=
  if kv.1 = "id" then
    match kv.2 with
    | JValue.num n =>
        if inInt n then ({ acc.1 with ID := n }, acc.2)
        else (acc.1, acc.2.orElse (fun _ => some (jsonTypeError "id")))
    | _ => (acc.1, acc.2.orElse (fun _ => some (jsonTypeError "id")))
  else
    match kv.2 with
    | JValue.str s => ({ acc.1 with Name := s }, acc.2)
    | _ => (acc.1, acc.2.orElse (fun _ => some (jsonTypeError "name")))

/-- The function `json.Unmarshal(data, &v)` for a struct with the fields `ID int` (key
`id`) and `Name string` (key `name`): an unreadable document is rejected before anything
is written; otherwise the members are stored one by one into the value `v` holds, and the
first type error, if any, is returned at the end. -/
def IdName.Unmarshal (data : Bytes) (v : IdName) : IdName × Option GoError :=
  match parseJSON data with
  | some (JValue.obj fields) =>
      if fields.all (fun kv => decide (kv.1 = "id") || decide (kv.1 = "name")) then
        fields.foldl IdName.store (v, none)
      else (v, some jsonSyntaxError)
  | some _ => (v, some (jsonTypeError "(top level)"))
  | none => (v, some jsonSyntaxError)

/-- The decode target of the single-resource calls on concrete inputs. -/
def IdName.target : Target IdName := ⟨⟨0, ""⟩, IdName.Unmarshal⟩

/-- One element of `results`: an object with string members `name` and `url`. -/
def decodeNamedResource : JValue → Option NamedResource
  | JValue.obj fields =>
      fields.foldl
        (fun acc kv =>
          match acc, kv.2 with
          | some r, JValue.str s =>
              if kv.1 = "name" then some { r with Name := s }
              else if kv.1 = "url" then some { r with URL := s }
              else none
          | _, _ => none)
        (some ⟨"", ""⟩)
  | _ => none

/-- Store one member of the list envelope; `none` when the member is outside the
fragment or of the wrong type. -/
def response.store (acc : Option response) (kv : String × JValue) : Option response :=
  match acc with
  | none => none
  | some r =>
    if kv.1 = "count" then
      match kv.2 with
      | JValue.num n => if inInt n then some { r with Count := n } else none
      | _ => none
    else if kv.1 = "results" then
      match kv.2 with
      | JValue.arr items =>
          match items.mapM decodeNamedResource with
          | some rs => some { r with Results := rs }
          | none => none
      | _ => none
    else none

/-- The function `json.Unmarshal(data, &resp)` for the list envelope
`{count, results: [{name, url}]}`, as the list methods call it: on the zero value, and
reading `resp` only when no error is returned. -/
def response.Unmarshal (data : Bytes) (v : response) : response × Option GoError :=
  match parseJSON data with
  | some (JValue.obj fields) =>
      match fields.foldl response.store (some v) with
      | some r => (r, none)
      | none => (v, some (jsonTypeError "(list envelope)"))
  | some _ => (v, some (jsonTypeError "(top level)"))
  | none => (v, some jsonSyntaxError)

/-- The decode target of the list calls on concrete inputs. -/
def response.target : Target response := ⟨response.zero, response.Unmarshal⟩

/-- An HTTP client for which every request can be built and sent, in front of a server
that answers each URL as `answer` says, whatever was asked before. -/
def httpServing (answer : String → Response) : HttpClient :=
  ⟨fun _ => none, fun _ url => Except.ok (answer url)⟩

/-! ## Both resource kinds at once -/

/-- The two resource kinds the client serves. -/
inductive Kind where
  | pokemon
  | generation
  deriving DecidableEq, Repr

/-- The request URL of the single-resource method of a kind. -/
def client.resourceURL (c : client) : Kind → String → String
  | Kind.pokemon, idOrName => c.pokemonURL idOrName
  | Kind.generation, idOrName => c.generationURL idOrName

/-- The single-resource method of a kind: `GetPokemonByIDOrName` or
`GetGenerationByIDOrName`. -/
def client.GetByIDOrName {α : Type} (c : client) (k : Kind) (T : Target α)
    (net : List String) (t : Clock) (idOrName : String) : Outcome α :=
  match k with
  | Kind.pokemon => c.GetPokemonByIDOrName T net t idOrName
  | Kind.generation => c.GetGenerationByIDOrName T net t idOrName

/-- The request URL of the list method of a kind. -/
def client.listURL (c : client) : Kind → Int → Int → String
  | Kind.pokemon, limit, offset => c.pokemonListURL limit offset
  | Kind.generation, limit, offset => c.generationListURL limit offset

/-- The list method of a kind: `GetPokemonNamesList` or `GetGenerationNamesList`. -/
def client.GetNamesList (c : client) (k : Kind) (L : Target response) (net : List String)
    (limit offset : Int) : Outcome (List String × Bool) :=
  match k with
  | Kind.pokemon => c.GetPokemonNamesList L net limit offset
  | Kind.generation => c.GetGenerationNamesList L net limit offset

/-- The client with a new cache in place of the old one, as the next call finds it. -/
def client.withCache (c : client) (cache : Option Cache) : client :=
  { c with cache := cache }

/-! ## Concrete inputs -/

/-- The base URL `defaultBaseURL` of `config.go`. -/
def defaultBaseURL : String := "https://pokeapi.co/api/v2"

/-- A body the server sends for a single resource. -/
def pikachuBody : Bytes := "\x7b\"id\":25,\"name\":\"pikachu\"\x7d"

/-- A client on the default base URL whose server answers every URL with the given status
and body. -/
def stubClient (status : Int) (body : Bytes) (cache : Option Cache) : client :=
  ⟨defaultBaseURL, httpServing (fun _ => ⟨status, Except.ok body⟩), cache⟩

/-- The cache with the item of one URL removed. -/
def Cache.without (c : Cache) (url : String) : Cache :=
  { c with items := fun k => if k = url then none else c.items k }

/-- Cached bytes that are valid JSON but give `id` the wrong type. -/
def ghostBytes : Bytes := "\x7b\"id\":\"x\",\"name\":\"ghost\"\x7d"

/-- A body that sets `id` only. -/
def idOnlyBody : Bytes := "\x7b\"id\":25\x7d"

/-- A list body: 20 names in all, two of them on this page. -/
def listBody20 : Bytes :=
  "\x7b\"count\":20,\"results\":[\x7b\"name\":\"generation-i\",\"url\":\"u1\"\x7d,\x7b\"name\":\"generation-ii\",\"url\":\"u2\"\x7d]\x7d"

/-- The same page when there are 21 names in all. -/
def listBody21 : Bytes :=
  "\x7b\"count\":21,\"results\":[\x7b\"name\":\"generation-i\",\"url\":\"u1\"\x7d,\x7b\"name\":\"generation-ii\",\"url\":\"u2\"\x7d]\x7d"

/-- A first page of two names out of 1302. -/
def twoNamesBody : Bytes :=
  "\x7b\"count\":1302,\"results\":[\x7b\"name\":\"bulbasaur\",\"url\":\"u1\"\x7d,\x7b\"name\":\"ivysaur\",\"url\":\"u2\"\x7d]\x7d"

/-! ## Sequences of cursor calls -/

/-- The calls a caller can make on a cursor: `Next` and `Get` / `GetWithContext`. -/
inductive CursorOp where
  | next
  | get
  deriving DecidableEq, Repr

/-- One call of a sequence: the method, the requests sent before it, the embedded `List`
the call found and what the call left. -/
structure CallRecord where
  op : CursorOp
  before : List String
  found : ListState
  out : CursorOutcome

/-- Make the calls `ops` one after the other, each on the cursor state and the request
log the call before it left. -/
def runOps (next get : ListState → List String → CursorOutcome) :
    List CursorOp → ListState → List String → List CallRecord
  | [], _, _ => []
  | CursorOp.next :: ops, l, net =>
      ⟨CursorOp.next, net, l, next l net⟩ ::
        runOps next get ops (next l net).list (next l net).net
  | CursorOp.get :: ops, l, net =>
      ⟨CursorOp.get, net, l, get l net⟩ ::
        runOps next get ops (get l net).list (get l net).net

/-- The calls `ops` made on a `PokemonList`. -/
def PokemonList.calls (l : PokemonList) (L : Target response) (ops : List CursorOp)
    (net : List String) : List CallRecord :=
  runOps (fun s n => PokemonList.Next { l with toListState := s } L n)
    (fun s n => PokemonList.GetWithContext { l with toListState := s } L n)
    ops l.toListState net

/-- The calls `ops` made on a `GenerationList`. -/
def GenerationList.calls (l : GenerationList) (L : Target response) (ops : List CursorOp)
    (net : List String) : List CallRecord :=
  runOps (fun s n => GenerationList.Next { l with toListState := s } L n)
    (fun s n => GenerationList.GetWithContext { l with toListState := s } L n)
    ops l.toListState net

/-- A `PokemonList` on page 3 with page size 5 whose `done` flag is set. -/
def donePokemonList : PokemonList :=
  { resolver := ⟨stubClient 200 listBody20 none⟩, page := 3, pageSize := 5, limit := 0,
    done := true }

/-! ## Cursors of both kinds at once -/

/-- The embedded `List` of the cursor a resolver builds for a kind: `Resolver.PokemonList`
or `Resolver.GenerationList`. -/
def Resolver.newList (r : Resolver) (k : Kind) (page pageSize : Int) : ListState :=
  match k with
  | Kind.pokemon => (r.PokemonList page pageSize).toListState
  | Kind.generation => (r.GenerationList page pageSize).toListState

/-- The method `Next` of the cursor of a kind, on a cursor with the resolver `r` and the
embedded `List` `s`. -/
def cursorNext (k : Kind) (r : Resolver) (s : ListState) (L : Target response)
    (net : List String) : CursorOutcome :=
  match k with
  | Kind.pokemon => PokemonList.Next { toListState := s, resolver := r } L net
  | Kind.generation => GenerationList.Next { toListState := s, resolver := r } L net

/-- The method `GetWithContext` (and `Get`) of the cursor of a kind. -/
def cursorGet (k : Kind) (r : Resolver) (s : ListState) (L : Target response)
    (net : List String) : CursorOutcome :=
  match k with
  | Kind.pokemon => PokemonList.GetWithContext { toListState := s, resolver := r } L net
  | Kind.generation =>
      GenerationList.GetWithContext { toListState := s, resolver := r } L net

/-- The calls `ops` made on the cursor of a kind. -/
def cursorCalls (k : Kind) (r : Resolver) (s : ListState) (L : Target response)
    (ops : List CursorOp) (net : List String) : List CallRecord :=
  match k with
  | Kind.pokemon => PokemonList.calls { toListState := s, resolver := r } L ops net
  | Kind.generation => GenerationList.calls { toListState := s, resolver := r } L ops net

/-- A cursor state on page 3 with page size 5, not done. -/
def pageThreeList : ListState := ⟨3, 5, 0, false⟩

/-- A cursor state on page 4 with page size 5, not done. -/
def pageFourList : ListState := ⟨4, 5, 0, false⟩

/-- A resolver whose server answers every list request with two names out of 1302. -/
def twoNamesResolver : Resolver := ⟨stubClient 200 twoNamesBody none⟩

/-- The third call of the sequence `Get`, `Next`, `Next` on the cursor
`PokemonList(1, 5)` of `twoNamesResolver`: a `Next` that finds the cursor on page 2. -/
def thirdCall : CallRecord :=
  ⟨CursorOp.next,
    ["https://pokeapi.co/api/v2/pokemon?limit=5&offset=0",
      "https://pokeapi.co/api/v2/pokemon?limit=5&offset=0"],
    ⟨2, 5, 0, false⟩,
    cursorNext Kind.pokemon twoNamesResolver ⟨2, 5, 0, false⟩ response.target
      ["https://pokeapi.co/api/v2/pokemon?limit=5&offset=0",
        "https://pokeapi.co/api/v2/pokemon?limit=5&offset=0"]⟩

/-! ## A server that holds a list of names -/

/-- The server holds the ordered list `names` and answers the list request of kind `k`
with limit `n` and offset `o` by status 200 and a body that decodes to the count
`names.length` and to results named `names[o .. o+n)`. -/
def servesPage (c : client) (L : Target response) (k : Kind) (names : List String)
    (n o : Nat) : Prop :=
  c.httpClient.NewRequest (c.listURL k n o) = none ∧
  ∀ sent, ∃ body results,
    c.httpClient.Do sent (c.listURL k n o) = Except.ok ⟨200, Except.ok body⟩ ∧
    L.Unmarshal body response.zero = (⟨names.length, results⟩, none) ∧
    results.map NamedResource.Name = (names.drop o).take n

/-- The eleven names a concrete server holds. -/
def elevenNames : List String :=
  ["n1", "n2", "n3", "n4", "n5", "n6", "n7", "n8", "n9", "n10", "n11"]

/-- The body for limit 5 and offset 0. -/
def pageOneBody : Bytes :=
  "\x7b\"count\":11,\"results\":[\x7b\"name\":\"n1\",\"url\":\"\"\x7d,\x7b\"name\":\"n2\",\"url\":\"\"\x7d,\x7b\"name\":\"n3\",\"url\":\"\"\x7d,\x7b\"name\":\"n4\",\"url\":\"\"\x7d,\x7b\"name\":\"n5\",\"url\":\"\"\x7d]\x7d"

/-- The body for limit 5 and offset 5. -/
def pageTwoBody : Bytes :=
  "\x7b\"count\":11,\"results\":[\x7b\"name\":\"n6\",\"url\":\"\"\x7d,\x7b\"name\":\"n7\",\"url\":\"\"\x7d,\x7b\"name\":\"n8\",\"url\":\"\"\x7d,\x7b\"name\":\"n9\",\"url\":\"\"\x7d,\x7b\"name\":\"n10\",\"url\":\"\"\x7d]\x7d"

/-- The body for limit 10 and offset 0. -/
def firstTenBody : Bytes :=
  "\x7b\"count\":11,\"results\":[\x7b\"name\":\"n1\",\"url\":\"\"\x7d,\x7b\"name\":\"n2\",\"url\":\"\"\x7d,\x7b\"name\":\"n3\",\"url\":\"\"\x7d,\x7b\"name\":\"n4\",\"url\":\"\"\x7d,\x7b\"name\":\"n5\",\"url\":\"\"\x7d,\x7b\"name\":\"n6\",\"url\":\"\"\x7d,\x7b\"name\":\"n7\",\"url\":\"\"\x7d,\x7b\"name\":\"n8\",\"url\":\"\"\x7d,\x7b\"name\":\"n9\",\"url\":\"\"\x7d,\x7b\"name\":\"n10\",\"url\":\"\"\x7d]\x7d"

/-- A resolver on the default base URL whose server holds `elevenNames` and answers the
three Pokemon list requests of the pagination test. -/
def pagingResolver : Resolver :=
  ⟨defaultBaseURL,
    httpServing (fun url =>
      if url = "https://pokeapi.co/api/v2/pokemon?limit=5&offset=0" then
        ⟨200, Except.ok pageOneBody⟩
      else if url = "https://pokeapi.co/api/v2/pokemon?limit=5&offset=5" then
        ⟨200, Except.ok pageTwoBody⟩
      else if url = "https://pokeapi.co/api/v2/pokemon?limit=10&offset=0" then
        ⟨200, Except.ok firstTenBody⟩
      else ⟨404, Except.ok ""⟩),
    some (NewCache 0)⟩

/-! ## Theorems -/

theorem resourceURL_withCache (c : client) (cache : Option Cache) (k : Kind) (id : String) :
    (c.withCache cache).resourceURL k id = c.resourceURL k id := by
  cases k <;> rfl

theorem GetByIDOrName_eq {α : Type} (c : client) (k : Kind) (T : Target α)
    (net : List String) (t : Clock) (id : String) :
    c.GetByIDOrName k T net t id = c.getByURL T net t (c.resourceURL k id) := by
  cases k <;> rfl

/-- A cache miss (or a disabled cache) followed by a 200 answer whose body decodes: the
call returns the decoded body, stores the body and has sent one request. -/
theorem getByURL_miss_ok {α : Type} (c : client) (T : Target α) (net : List String)
    (t : Clock) (url : String) (body : Bytes) (v : α)
    (hload : c.loadFromCache T t.load url T.zero =
        (T.zero, some (GoError.errorf "cache miss")) ∨
      c.loadFromCache T t.load url T.zero =
        (T.zero, some (GoError.errorf "cache disabled")))
    (hreq : c.httpClient.NewRequest url = none)
    (hsrv : c.httpClient.Do net url = Except.ok ⟨200, Except.ok body⟩)
    (hdec : T.Unmarshal body T.zero = (v, none)) :
    c.getByURL T net t url =
      ⟨Except.ok v, c.saveToCache t.save url body, net ++ [url]⟩ := by
  rcases hload with hload | hload <;>
    simp [client.getByURL, client.fetchFromURL, hload, hreq, hsrv, hdec]

/-- A cache hit: the call returns the decoded entry and sends nothing. -/
theorem getByURL_hit {α : Type} (c : client) (T : Target α) (net : List String)
    (t : Clock) (url : String) (cache : Cache) (data : Bytes) (v : α)
    (hc : c.cache = some cache)
    (hget : cache.GetResponseBodyForURL t.load url = some data)
    (hdec : T.Unmarshal data T.zero = (v, none)) :
    c.getByURL T net t url = ⟨Except.ok v, c.cache, net⟩ := by
  simp [client.getByURL, client.loadFromCache, hc, hget, hdec]

/-- A lookup of the key just written finds the written bytes unless the item has expired:
its expiry instant is positive and the lookup is later. -/
theorem lookup_after_store (cache : Cache) (ts now : Int) (url : String) (body : Bytes) :
    (cache.CacheResponseForURL ts url body).GetResponseBodyForURL now url =
      if (if cache.defaultExpiration > 0 then ts + cache.defaultExpiration else 0) > 0 ∧
          now > (if cache.defaultExpiration > 0 then ts + cache.defaultExpiration else 0)
      then none else some body := by
  simp [Cache.GetResponseBodyForURL, Cache.CacheResponseForURL]

/-- The second of two identical calls, made with the cache the first one left: it
returns the decoded body, and it sends nothing when the lookup finds the entry of the
first call, one request when it does not. -/
theorem second_call_after_store {α : Type} (T : Target α) (c : client) (cache : Cache)
    (net1 : List String) (t1 t2 : Clock) (url : String) (body : Bytes) (v : α)
    (hc : c.cache = some cache)
    (hreq : c.httpClient.NewRequest url = none)
    (hsrv : c.httpClient.Do net1 url = Except.ok ⟨200, Except.ok body⟩)
    (hdec : T.Unmarshal body T.zero = (v, none)) :
    ((c.withCache (c.saveToCache t1.save url body)).getByURL T net1 t2 url).ret =
        Except.ok v ∧
      ((cache.CacheResponseForURL t1.save url body).GetResponseBodyForURL t2.load url =
          some body →
        ((c.withCache (c.saveToCache t1.save url body)).getByURL T net1 t2 url).net =
          net1) ∧
      ((cache.CacheResponseForURL t1.save url body).GetResponseBodyForURL t2.load url =
          none →
        ((c.withCache (c.saveToCache t1.save url body)).getByURL T net1 t2 url).net =
          net1 ++ [url]) := by
  have hsave : c.saveToCache t1.save url body =
      some (cache.CacheResponseForURL t1.save url body) := by
    simp [client.saveToCache, hc]
  have hcases := lookup_after_store cache t1.save t2.load url body
  rw [hsave]
  by_cases hexp :
      (if cache.defaultExpiration > 0 then t1.save + cache.defaultExpiration else 0) > 0 ∧
        t2.load >
          (if cache.defaultExpiration > 0 then t1.save + cache.defaultExpiration else 0)
  · rw [if_pos hexp] at hcases
    have hmiss := getByURL_miss_ok
      (c.withCache (some (cache.CacheResponseForURL t1.save url body))) T net1 t2 url
      body v
      (Or.inl (by simp [client.loadFromCache, client.withCache, hcases]))
      hreq hsrv hdec
    rw [hmiss, hcases]
    simp
  · rw [if_neg hexp] at hcases
    have hhit := getByURL_hit
      (c.withCache (some (cache.CacheResponseForURL t1.save url body))) T net1 t2 url
      (cache.CacheResponseForURL t1.save url body) body v rfl hcases hdec
    rw [hhit, hcases]
    simp

/-- Counterexample to C1: the cache is enabled with a TTL of one nanosecond and starts
empty; the first call stores the body at instant 200, the second call looks it up at
instant 300, when the entry has expired, and a second request is sent. -/
theorem expired_entry_is_fetched_again :
    (((stubClient 200 pikachuBody (some (NewCache 1))).withCache
        ((stubClient 200 pikachuBody (some (NewCache 1))).GetByIDOrName Kind.pokemon
          IdName.target [] ⟨100, 200⟩ "pikachu").cache).GetByIDOrName Kind.pokemon
        IdName.target
        ((stubClient 200 pikachuBody (some (NewCache 1))).GetByIDOrName Kind.pokemon
          IdName.target [] ⟨100, 200⟩ "pikachu").net ⟨300, 400⟩ "pikachu").net =
      ["https://pokeapi.co/api/v2/pokemon/pikachu",
        "https://pokeapi.co/api/v2/pokemon/pikachu"] := by
  rfl

/-- C1 (amended): when the server answers the URL of an identifier with status 200 and a
body that decodes, two consecutive identical calls of `GetPokemonByIDOrName` (likewise
`GetGenerationByIDOrName`) both return the decoding of that body.  Starting from the
empty cache `NewCache(ttl)` they send exactly one request when the entry the first call
stored has not expired at the lookup of the second (`ttl` is not positive, or the lookup
is at most `ttl` after the store), and exactly two when it has expired; with the cache
disabled they send exactly two. -/
theorem two_identical_calls_fetch_once_while_entry_lives {α : Type}
    (T : Target α) (k : Kind) (c : client) (net : List String) (id : String) (body : Bytes)
    (ttl : Int) (t1 t2 : Clock)
    (hreq : c.httpClient.NewRequest (c.resourceURL k id) = none)
    (hsrv : ∀ sent, c.httpClient.Do sent (c.resourceURL k id) =
      Except.ok ⟨200, Except.ok body⟩)
    (hdec : (T.Unmarshal body T.zero).2 = none)
    (hcache : c.cache = some (NewCache ttl) ∨ c.cache = none) :
    (c.GetByIDOrName k T net t1 id).ret = Except.ok (T.Unmarshal body T.zero).1 ∧
    ((c.withCache (c.GetByIDOrName k T net t1 id).cache).GetByIDOrName k T
        (c.GetByIDOrName k T net t1 id).net t2 id).ret =
      (c.GetByIDOrName k T net t1 id).ret ∧
    (c.cache = some (NewCache ttl) → ttl ≤ 0 ∨ t2.load ≤ t1.save + ttl →
      ((c.withCache (c.GetByIDOrName k T net t1 id).cache).GetByIDOrName k T
        (c.GetByIDOrName k T net t1 id).net t2 id).net = net ++ [c.resourceURL k id]) ∧
    (c.cache = some (NewCache ttl) → 0 < ttl → 0 ≤ t1.save → t1.save + ttl < t2.load →
      ((c.withCache (c.GetByIDOrName k T net t1 id).cache).GetByIDOrName k T
        (c.GetByIDOrName k T net t1 id).net t2 id).net =
        net ++ [c.resourceURL k id, c.resourceURL k id]) ∧
    (c.cache = none →
      ((c.withCache (c.GetByIDOrName k T net t1 id).cache).GetByIDOrName k T
        (c.GetByIDOrName k T net t1 id).net t2 id).net =
        net ++ [c.resourceURL k id, c.resourceURL k id]) := by
  have hv : T.Unmarshal body T.zero = ((T.Unmarshal body T.zero).1, none) :=
    Prod.ext rfl hdec
  rcases hcache with hc | hc
  · have h1 : c.GetByIDOrName k T net t1 id =
        ⟨Except.ok (T.Unmarshal body T.zero).1,
          c.saveToCache t1.save (c.resourceURL k id) body,
          net ++ [c.resourceURL k id]⟩ := by
      rw [GetByIDOrName_eq]
      exact getByURL_miss_ok c T net t1 _ body _
        (Or.inl (by simp [client.loadFromCache, hc, NewCache, Cache.GetResponseBodyForURL]))
        hreq (hsrv net) hv
    have h2 := second_call_after_store T c (NewCache ttl) (net ++ [c.resourceURL k id])
      t1 t2 (c.resourceURL k id) body _ hc hreq (hsrv _) hv
    have hlook := lookup_after_store (NewCache ttl) t1.save t2.load (c.resourceURL k id)
      body
    have hsec : ∀ n, (c.withCache (c.saveToCache t1.save (c.resourceURL k id)
        body)).GetByIDOrName k T n t2 id =
        (c.withCache (c.saveToCache t1.save (c.resourceURL k id) body)).getByURL T n t2
          (c.resourceURL k id) := by
      intro n
      rw [GetByIDOrName_eq, resourceURL_withCache]
    rw [h1]
    dsimp only
    rw [hsec]
    refine ⟨rfl, h2.1, ?_, ?_, ?_⟩
    · intro _ hlive
      apply h2.2.1
      rw [hlook, if_neg]
      simp only [NewCache]
      rcases hlive with hle | hle
      · by_cases h0 : ttl = 0
        · simp [h0]
        · have hneg : ¬ ttl > 0 := by omega
          simp [h0, hneg]
      · by_cases hpos : ttl > 0
        · have h0 : ttl ≠ 0 := by omega
          simp only [h0, if_false, hpos, if_true]
          omega
        · by_cases h0 : ttl = 0
          · simp [h0]
          · simp [h0, hpos]
    · intro _ hpos hclock hlate
      have h0 : ttl ≠ 0 := by omega
      have hnet := h2.2.2 (by
        rw [hlook, if_pos]
        simp only [NewCache, h0, if_false, hpos, if_true]
        omega)
      rw [hnet]
      simp
    · intro hnone
      rw [hc] at hnone
      cases hnone
  · have hsave : ∀ ts, c.saveToCache ts (c.resourceURL k id) body = none := by
      intro ts
      simp [client.saveToCache, hc]
    have h1 : c.GetByIDOrName k T net t1 id =
        ⟨Except.ok (T.Unmarshal body T.zero).1, none, net ++ [c.resourceURL k id]⟩ := by
      rw [GetByIDOrName_eq, ← hsave t1.save]
      exact getByURL_miss_ok c T net t1 _ body _
        (Or.inr (by simp [client.loadFromCache, hc])) hreq (hsrv net) hv
    have h2 : (c.withCache none).GetByIDOrName k T (net ++ [c.resourceURL k id]) t2 id =
        ⟨Except.ok (T.Unmarshal body T.zero).1, none,
          net ++ [c.resourceURL k id] ++ [c.resourceURL k id]⟩ := by
      rw [GetByIDOrName_eq, resourceURL_withCache]
      have := getByURL_miss_ok (c.withCache none) T (net ++ [c.resourceURL k id]) t2
        (c.resourceURL k id) body _
        (Or.inr (by simp [client.loadFromCache, client.withCache])) hreq (hsrv _) hv
      simpa [client.saveToCache, client.withCache] using this
    rw [h1]
    simp only [h2]
    simp [hc]

/-- Witness of C1 (amended) on the stub server and the configuration of the tests, which
leave `CacheTTL` zero: from an empty cache the two calls for `pikachu` return the decoded
stub and send one request, however late the second call is. -/
theorem two_identical_calls_fetch_once_while_entry_lives_witness :
    ((stubClient 200 pikachuBody (some (NewCache 0))).GetByIDOrName Kind.pokemon
        IdName.target [] ⟨100, 200⟩ "pikachu").ret = Except.ok ⟨25, "pikachu"⟩ ∧
    (((stubClient 200 pikachuBody (some (NewCache 0))).withCache
        ((stubClient 200 pikachuBody (some (NewCache 0))).GetByIDOrName Kind.pokemon
          IdName.target [] ⟨100, 200⟩ "pikachu").cache).GetByIDOrName Kind.pokemon
        IdName.target
        ((stubClient 200 pikachuBody (some (NewCache 0))).GetByIDOrName Kind.pokemon
          IdName.target [] ⟨100, 200⟩ "pikachu").net ⟨300, 400⟩ "pikachu").net =
      ["https://pokeapi.co/api/v2/pokemon/pikachu"] := by
  have h := two_identical_calls_fetch_once_while_entry_lives IdName.target
    Kind.pokemon (stubClient 200 pikachuBody (some (NewCache 0))) [] "pikachu" pikachuBody
    0 ⟨100, 200⟩ ⟨300, 400⟩ rfl (fun _ => rfl) (by decide) (Or.inl rfl)
  exact ⟨h.1, h.2.2.1 rfl (Or.inl (by decide))⟩

/-- When the cache is disabled, or holds for the URL no entry that decodes, `loadFromCache`
returns an error. -/
theorem loadFromCache_fails {α : Type} (c : client) (T : Target α) (now : Int)
    (url : String)
    (hmiss : ∀ cache data, c.cache = some cache →
      cache.GetResponseBodyForURL now url = some data →
      (T.Unmarshal data T.zero).2 ≠ none) :
    ∃ r e, c.loadFromCache T now url T.zero = (r, some e) := by
  unfold client.loadFromCache
  cases hc : c.cache with
  | none => exact ⟨_, _, rfl⟩
  | some cache =>
    cases hg : cache.GetResponseBodyForURL now url with
    | none => exact ⟨T.zero, GoError.errorf "cache miss", by simp [hg]⟩
    | some data =>
      have h := hmiss cache data hc hg
      cases hu : (T.Unmarshal data T.zero).2 with
      | none => exact absurd hu h
      | some e =>
        refine ⟨(T.Unmarshal data T.zero).1, e, ?_⟩
        simp only [hg]
        exact Prod.ext rfl hu

/-- The fetch of a URL the server answers with 404 fails with `model.ErrNotFound`. -/
theorem fetchFromURL_404 (c : client) (net : List String) (url : String) (resp : Response)
    (hreq : c.httpClient.NewRequest url = none)
    (hsrv : c.httpClient.Do net url = Except.ok resp) (h404 : resp.StatusCode = 404) :
    c.fetchFromURL net url = (Except.error model.ErrNotFound, net ++ [url]) := by
  simp [client.fetchFromURL, hreq, hsrv, h404]

/-- Counterexample to C2: the server answers the URL of `pikachu` with 404, the cache holds
a decodable entry for that URL, and the call returns the cached value with no error. -/
theorem cached_entry_hides_not_found :
    ((stubClient 404 "" none).httpClient.Do []
        "https://pokeapi.co/api/v2/pokemon/pikachu").map Response.StatusCode =
      Except.ok 404 ∧
    ((stubClient 404 "" (some ((NewCache 0).CacheResponseForURL 50
        "https://pokeapi.co/api/v2/pokemon/pikachu" pikachuBody))).GetByIDOrName
        Kind.pokemon IdName.target [] ⟨100, 200⟩ "pikachu").ret =
      Except.ok ⟨25, "pikachu"⟩ := by
  constructor
  · rfl
  · rfl

/-- C2 (amended): when the server answers the URL of an identifier with status 404 and the
cache is disabled, or holds for that URL no entry that decodes as the target type,
`GetPokemonByIDOrName` and `GetGenerationByIDOrName` return no value and an error `err`
with `errors.Is(err, model.ErrNotFound)`: the wrapping added by the caller keeps the
identity of `ErrNotFound`. -/
theorem not_found_survives_wrapping_unless_cached {α : Type} (T : Target α) (k : Kind)
    (c : client) (net : List String) (t : Clock) (id : String) (resp : Response)
    (hreq : c.httpClient.NewRequest (c.resourceURL k id) = none)
    (hsrv : c.httpClient.Do net (c.resourceURL k id) = Except.ok resp)
    (h404 : resp.StatusCode = 404)
    (hmiss : ∀ cache data, c.cache = some cache →
      cache.GetResponseBodyForURL t.load (c.resourceURL k id) = some data →
      (T.Unmarshal data T.zero).2 ≠ none) :
    ∃ err, (c.GetByIDOrName k T net t id).ret = Except.error err ∧
      errorsIs err model.ErrNotFound = true := by
  obtain ⟨r, e, hload⟩ := loadFromCache_fails c T t.load _ hmiss
  refine ⟨GoError.wrapf "failed to fetch generation" model.ErrNotFound, ?_, ?_⟩
  · rw [GetByIDOrName_eq]
    simp [client.getByURL, hload, fetchFromURL_404 c net _ resp hreq hsrv h404]
  · simp [errorsIs, model.ErrNotFound]

/-- Witness of C2 (amended): generation `777` against a server answering 404, with a cache
that holds an undecodable entry for the URL. -/
theorem not_found_survives_wrapping_unless_cached_witness :
    ∃ err, ((stubClient 404 "" (some ((NewCache 0).CacheResponseForURL 50
        "https://pokeapi.co/api/v2/generation/777" "not json"))).GetByIDOrName
        Kind.generation IdName.target [] ⟨100, 200⟩ "777").ret = Except.error err ∧
      errorsIs err model.ErrNotFound = true :=
  not_found_survives_wrapping_unless_cached IdName.target Kind.generation
    (stubClient 404 "" (some ((NewCache 0).CacheResponseForURL 50
        "https://pokeapi.co/api/v2/generation/777" "not json"))) [] ⟨100, 200⟩ "777"
    ⟨404, Except.ok ""⟩ rfl rfl rfl
    (by
      intro cache data hc hg
      have hc1 : (NewCache 0).CacheResponseForURL 50
          "https://pokeapi.co/api/v2/generation/777" "not json" = cache :=
        Option.some.inj hc
      subst hc1
      have hd : "not json" = data := Option.some.inj hg
      subst hd
      decide)

/-- C3: for a response the transport delivers with its body read to the end,
`fetchFromURL` returns that body with no error if and only if the status is 200, fails
with exactly `model.ErrNotFound` if and only if the status is 404, and for every other
status fails with an error that is not `model.ErrNotFound` and does not wrap it. -/
theorem fetchFromURL_classifies_status (c : client) (net : List String) (url : String)
    (status : Int) (body : Bytes)
    (hreq : c.httpClient.NewRequest url = none)
    (hsrv : c.httpClient.Do net url = Except.ok ⟨status, Except.ok body⟩) :
    ((c.fetchFromURL net url).1 = Except.ok body ↔ status = 200) ∧
    ((c.fetchFromURL net url).1 = Except.error model.ErrNotFound ↔ status = 404) ∧
    (status ≠ 200 → status ≠ 404 →
      ∃ err, (c.fetchFromURL net url).1 = Except.error err ∧ err ≠ model.ErrNotFound ∧
        errorsIs err model.ErrNotFound = false) := by
  by_cases h200 : status = 200
  · subst h200
    simp [client.fetchFromURL, hreq, hsrv]
  · by_cases h404 : status = 404
    · subst h404
      simp [client.fetchFromURL, hreq, hsrv]
    · simp [client.fetchFromURL, hreq, hsrv, h200, h404, model.ErrNotFound, errorsIs]

/-- Witness of C3: status 201 with a body is a failure that is not `model.ErrNotFound`. -/
theorem fetchFromURL_classifies_status_witness :
    (((stubClient 201 "created" none).fetchFromURL [] "u").1 = Except.ok "created" ↔
      (201 : Int) = 200) ∧
    (((stubClient 201 "created" none).fetchFromURL [] "u").1 =
      Except.error model.ErrNotFound ↔ (201 : Int) = 404) ∧
    ((201 : Int) ≠ 200 → (201 : Int) ≠ 404 →
      ∃ err, ((stubClient 201 "created" none).fetchFromURL [] "u").1 = Except.error err ∧
        err ≠ model.ErrNotFound ∧ errorsIs err model.ErrNotFound = false) :=
  fetchFromURL_classifies_status (stubClient 201 "created" none) [] "u" 201 "created"
    rfl rfl

/-- A request that can be built is sent: the log grows by the URL. -/
theorem fetchFromURL_net (c : client) (net : List String) (url : String)
    (hreq : c.httpClient.NewRequest url = none) :
    (c.fetchFromURL net url).2 = net ++ [url] := by
  unfold client.fetchFromURL
  rw [hreq]
  cases c.httpClient.Do net url with
  | error e => rfl
  | ok resp =>
    by_cases h200 : resp.StatusCode = 200
    · simp [h200]
    · by_cases h404 : resp.StatusCode = 404 <;> simp [h200, h404]

/-- A request that cannot be built is not sent. -/
theorem fetchFromURL_net_of_bad_request (c : client) (net : List String) (url : String)
    (e : GoError) (hreq : c.httpClient.NewRequest url = some e) :
    (c.fetchFromURL net url).2 = net := by
  simp [client.fetchFromURL, hreq]

/-- Storing under a URL gives the same cache whether or not the URL had an entry. -/
theorem CacheResponseForURL_without (cache : Cache) (now : Int) (url : String)
    (body : Bytes) :
    (cache.without url).CacheResponseForURL now url body =
      cache.CacheResponseForURL now url body := by
  unfold Cache.CacheResponseForURL Cache.without
  congr 1
  funext k
  by_cases hk : k = url <;> simp [hk]

/-- Counterexample to C4: the cached bytes of `pikachu` fail to decode but set `name`
before failing.  When the server sends a body without `name`, the call returns the name
of the cached bytes, where the same call on an empty cache returns the empty name; and
when the server answers 500, the call ends with the undecodable entry still in the
cache, where the same call on an empty cache ends with no entry. -/
theorem undecodable_entry_leaks_into_value :
    (IdName.target.Unmarshal ghostBytes IdName.target.zero).2 ≠ none ∧
    ((stubClient 200 idOnlyBody (some ((NewCache 0).CacheResponseForURL 50
        "https://pokeapi.co/api/v2/pokemon/pikachu" ghostBytes))).GetByIDOrName
        Kind.pokemon IdName.target [] ⟨100, 200⟩ "pikachu").ret = Except.ok ⟨25, "ghost"⟩ ∧
    ((stubClient 200 idOnlyBody (some (NewCache 0))).GetByIDOrName
        Kind.pokemon IdName.target [] ⟨100, 200⟩ "pikachu").ret = Except.ok ⟨25, ""⟩ ∧
    ((stubClient 500 "" (some ((NewCache 0).CacheResponseForURL 50
        "https://pokeapi.co/api/v2/pokemon/pikachu" ghostBytes))).GetByIDOrName
        Kind.pokemon IdName.target [] ⟨100, 200⟩ "pikachu").cache.bind
        (fun cache => cache.GetResponseBodyForURL 300
          "https://pokeapi.co/api/v2/pokemon/pikachu") = some ghostBytes ∧
    ((stubClient 500 "" (some (NewCache 0))).GetByIDOrName
        Kind.pokemon IdName.target [] ⟨100, 200⟩ "pikachu").cache.bind
        (fun cache => cache.GetResponseBodyForURL 300
          "https://pokeapi.co/api/v2/pokemon/pikachu") = none := by
  refine ⟨by decide, ?_, ?_, ?_, ?_⟩
  · rfl
  · rfl
  · rfl
  · rfl

/-- C4 (amended): when the cache entry of the request URL holds bytes that fail to decode
as the target type, and the error of `json.Unmarshal` depends on the document only,
`GetPokemonByIDOrName` (likewise `GetGenerationByIDOrName`) sends the same requests as the
same call on a cache with that key absent (one request whenever the request can be
built), fails exactly when that cache-miss run fails and with the same error (so never
with the decode error of the cached bytes), leaves on success the same final cache as the
cache-miss run, and leaves on failure the cache as it was. -/
theorem undecodable_entry_refetches_like_a_miss {α : Type} (T : Target α) (k : Kind)
    (c : client) (net : List String) (t : Clock) (id : String) (cache : Cache)
    (data : Bytes)
    (hc : c.cache = some cache)
    (hget : cache.GetResponseBodyForURL t.load (c.resourceURL k id) = some data)
    (hbad : (T.Unmarshal data T.zero).2 ≠ none)
    (hdoc : ∀ d v w, (T.Unmarshal d v).2 = (T.Unmarshal d w).2) :
    (c.GetByIDOrName k T net t id).net =
      ((c.withCache (some (cache.without (c.resourceURL k id)))).GetByIDOrName
        k T net t id).net ∧
    (c.httpClient.NewRequest (c.resourceURL k id) = none →
      (c.GetByIDOrName k T net t id).net = net ++ [c.resourceURL k id]) ∧
    (c.GetByIDOrName k T net t id).ret.map (fun _ => ()) =
      ((c.withCache (some (cache.without (c.resourceURL k id)))).GetByIDOrName
        k T net t id).ret.map (fun _ => ()) ∧
    (∀ v, (c.GetByIDOrName k T net t id).ret = Except.ok v →
      (c.GetByIDOrName k T net t id).cache =
        ((c.withCache (some (cache.without (c.resourceURL k id)))).GetByIDOrName
          k T net t id).cache) ∧
    (∀ e, (c.GetByIDOrName k T net t id).ret = Except.error e →
      (c.GetByIDOrName k T net t id).cache = c.cache) := by
  rw [GetByIDOrName_eq, GetByIDOrName_eq, resourceURL_withCache]
  generalize c.resourceURL k id = url at hget ⊢
  obtain ⟨r, e, hload⟩ := loadFromCache_fails c T t.load url (by
    intro cache1 data1 hc1 hg1
    rw [hc] at hc1
    have h1 : cache = cache1 := Option.some.inj hc1
    subst h1
    rw [hget] at hg1
    have h2 : data = data1 := Option.some.inj hg1
    subst h2
    exact hbad)
  have hload1 : (c.withCache (some (cache.without url))).loadFromCache T t.load url
      T.zero =
      (T.zero, some (GoError.errorf "cache miss")) := by
    simp [client.loadFromCache, client.withCache, Cache.without,
      Cache.GetResponseBodyForURL]
  have hf : (c.withCache (some (cache.without url))).fetchFromURL net url =
      c.fetchFromURL net url := rfl
  have hnet := fetchFromURL_net c net url
  unfold client.getByURL
  rw [hload, hload1, hf]
  rcases hfr : c.fetchFromURL net url with ⟨res, net1⟩
  rw [hfr] at hnet
  cases res with
  | error err => simpa using hnet
  | ok body =>
    dsimp only
    rcases h1 : T.Unmarshal body r with ⟨v1, e1⟩
    rcases h2 : T.Unmarshal body T.zero with ⟨v2, e2⟩
    have he : e1 = e2 := by
      have h := hdoc body r T.zero
      rw [h1, h2] at h
      exact h
    subst he
    cases e1 with
    | some err => simpa using hnet
    | none =>
      have hsave : (c.withCache (some (cache.without url))).saveToCache t.save url body =
          c.saveToCache t.save url body := by
        simp [client.saveToCache, client.withCache, hc, CacheResponseForURL_without]
      simpa [hsave, Except.map] using hnet

/-- The error recorded while storing a member does not depend on the struct written to. -/
theorem IdName.store_snd (a b : IdName × Option GoError) (kv : String × JValue)
    (h : a.2 = b.2) : (IdName.store a kv).2 = (IdName.store b kv).2 := by
  unfold IdName.store
  split
  · split
    · split <;> simp [h]
    · simp [h]
  · split <;> simp [h]

/-- The error left after storing all members does not depend on the struct written to. -/
theorem IdName.foldl_store_snd (fields : List (String × JValue)) :
    ∀ a b : IdName × Option GoError, a.2 = b.2 →
      (fields.foldl IdName.store a).2 = (fields.foldl IdName.store b).2 := by
  induction fields with
  | nil => intro a b h; exact h
  | cons kv rest ih =>
    intro a b h
    exact ih _ _ (IdName.store_snd a b kv h)

/-- The error of the concrete decoder depends on the document only. -/
theorem IdName.Unmarshal_snd (d : Bytes) (v w : IdName) :
    (IdName.target.Unmarshal d v).2 = (IdName.target.Unmarshal d w).2 := by
  show (IdName.Unmarshal d v).2 = (IdName.Unmarshal d w).2
  unfold IdName.Unmarshal
  split
  · split
    · exact IdName.foldl_store_snd _ _ _ rfl
    · rfl
  · rfl
  · rfl

/-- Witness of C4 (amended): the cache holds the undecodable `ghostBytes` for `pikachu`
and the server answers 200; the call sends one request and ends with the cache the
cache-miss run ends with. -/
theorem undecodable_entry_refetches_like_a_miss_witness :
    ((stubClient 200 idOnlyBody (some ((NewCache 0).CacheResponseForURL 50
        "https://pokeapi.co/api/v2/pokemon/pikachu" ghostBytes))).GetByIDOrName
        Kind.pokemon IdName.target [] ⟨100, 200⟩ "pikachu").net =
      ["https://pokeapi.co/api/v2/pokemon/pikachu"] ∧
    ((stubClient 200 idOnlyBody (some ((NewCache 0).CacheResponseForURL 50
        "https://pokeapi.co/api/v2/pokemon/pikachu" ghostBytes))).GetByIDOrName
        Kind.pokemon IdName.target [] ⟨100, 200⟩ "pikachu").cache =
      (((stubClient 200 idOnlyBody (some ((NewCache 0).CacheResponseForURL 50
        "https://pokeapi.co/api/v2/pokemon/pikachu" ghostBytes))).withCache
        (some (((NewCache 0).CacheResponseForURL 50
          "https://pokeapi.co/api/v2/pokemon/pikachu" ghostBytes).without
          "https://pokeapi.co/api/v2/pokemon/pikachu"))).GetByIDOrName
        Kind.pokemon IdName.target [] ⟨100, 200⟩ "pikachu").cache := by
  have h := undecodable_entry_refetches_like_a_miss IdName.target Kind.pokemon
    (stubClient 200 idOnlyBody (some ((NewCache 0).CacheResponseForURL 50
        "https://pokeapi.co/api/v2/pokemon/pikachu" ghostBytes))) [] ⟨100, 200⟩ "pikachu"
    ((NewCache 0).CacheResponseForURL 50 "https://pokeapi.co/api/v2/pokemon/pikachu"
      ghostBytes)
    ghostBytes rfl (by decide) (by decide) IdName.Unmarshal_snd
  exact ⟨h.2.1 rfl, h.2.2.2.1 ⟨25, "ghost"⟩ rfl⟩

/-- C5: with a cache configured, `GetPokemonByIDOrName` / `GetGenerationByIDOrName` change
the cache only when the call missed the cache and both the fetch and the decode of the
fetched body succeeded; then the item of the request URL holds the fetched body, which a
lookup at the instant of the write returns, and every other key has the item it had and
reads as before at every instant.  On a cache hit, on a fetch error and on a decode error
of the fetched body (which is returned as an error) the cache is unchanged. -/
theorem cache_written_only_after_fetch_and_decode {α : Type} (T : Target α) (k : Kind)
    (c : client) (net : List String) (t : Clock) (id : String) (cache : Cache)
    (hc : c.cache = some cache) :
    ((c.GetByIDOrName k T net t id).cache ≠ c.cache →
      ∃ r e body v, c.loadFromCache T t.load (c.resourceURL k id) T.zero = (r, some e) ∧
        (c.fetchFromURL net (c.resourceURL k id)).1 = Except.ok body ∧
        T.Unmarshal body r = (v, none)) ∧
    (∀ r e body v, c.loadFromCache T t.load (c.resourceURL k id) T.zero = (r, some e) →
      (c.fetchFromURL net (c.resourceURL k id)).1 = Except.ok body →
      T.Unmarshal body r = (v, none) →
      (c.GetByIDOrName k T net t id).cache =
          some (cache.CacheResponseForURL t.save (c.resourceURL k id) body) ∧
        (cache.CacheResponseForURL t.save (c.resourceURL k id) body).items
            (c.resourceURL k id) =
          some ⟨body,
            if cache.defaultExpiration > 0 then t.save + cache.defaultExpiration else 0⟩ ∧
        (cache.CacheResponseForURL t.save (c.resourceURL k id) body).GetResponseBodyForURL
          t.save (c.resourceURL k id) = some body ∧
        ∀ key, key ≠ c.resourceURL k id →
          (cache.CacheResponseForURL t.save (c.resourceURL k id) body).items key =
            cache.items key ∧
          ∀ now,
            (cache.CacheResponseForURL t.save (c.resourceURL k id)
                body).GetResponseBodyForURL now key =
              cache.GetResponseBodyForURL now key) ∧
    (∀ r, c.loadFromCache T t.load (c.resourceURL k id) T.zero = (r, none) →
      (c.GetByIDOrName k T net t id).cache = c.cache) ∧
    (∀ r e err, c.loadFromCache T t.load (c.resourceURL k id) T.zero = (r, some e) →
      (c.fetchFromURL net (c.resourceURL k id)).1 = Except.error err →
      (c.GetByIDOrName k T net t id).cache = c.cache) ∧
    (∀ r e body v err,
      c.loadFromCache T t.load (c.resourceURL k id) T.zero = (r, some e) →
      (c.fetchFromURL net (c.resourceURL k id)).1 = Except.ok body →
      T.Unmarshal body r = (v, some err) →
      (c.GetByIDOrName k T net t id).cache = c.cache ∧
        (c.GetByIDOrName k T net t id).ret =
          Except.error (GoError.wrapf "failed to unmarshal response" err)) := by
  rw [GetByIDOrName_eq]
  generalize c.resourceURL k id = url
  unfold client.getByURL
  rcases hload : c.loadFromCache T t.load url T.zero with ⟨r, e⟩
  rcases hfr : c.fetchFromURL net url with ⟨res, net1⟩
  cases e with
  | none =>
    refine ⟨fun h => absurd rfl h, ?_, fun _ _ => rfl, ?_, ?_⟩
    · intro r1 e1 body1 v1 h1; cases h1
    · intro r1 e1 err1 h1; cases h1
    · intro r1 e1 body1 v1 err1 h1; cases h1
  | some e =>
    cases res with
    | error err =>
      refine ⟨fun h => absurd rfl h, ?_, fun _ _ => rfl, fun _ _ _ _ _ => rfl, ?_⟩
      · intro r1 e1 body1 v1 _ h2; cases h2
      · intro r1 e1 body1 v1 err1 _ h2; cases h2
    | ok body =>
      dsimp only
      rcases hu : T.Unmarshal body r with ⟨v, e1⟩
      cases e1 with
      | some err =>
        refine ⟨fun h => absurd rfl h, ?_, fun _ _ => rfl, fun _ _ _ _ _ => rfl, ?_⟩
        · intro r1 e1 body1 v1 h1 h2 h3
          cases h1; cases h2
          rw [hu] at h3; cases h3
        · intro r1 e1 body1 v1 err1 h1 h2 h3
          cases h1; cases h2
          rw [hu] at h3; cases h3
          exact ⟨rfl, rfl⟩
      | none =>
        have hsave : c.saveToCache t.save url body =
            some (cache.CacheResponseForURL t.save url body) := by
          simp [client.saveToCache, hc]
        refine ⟨fun _ => ⟨r, e, body, v, rfl, rfl, hu⟩, ?_, ?_, ?_, ?_⟩
        · intro r1 e1 body1 v1 h1 h2 h3
          cases h1; cases h2
          refine ⟨hsave, ?_, ?_, ?_⟩
          · simp [Cache.CacheResponseForURL]
          · rw [lookup_after_store, if_neg]
            by_cases hde : cache.defaultExpiration > 0
            · simp only [hde, if_true]
              omega
            · simp [hde]
          · intro key hkey
            refine ⟨by simp [Cache.CacheResponseForURL, hkey], fun now => ?_⟩
            simp [Cache.GetResponseBodyForURL, Cache.CacheResponseForURL, hkey]
        · intro r1 h1; cases h1
        · intro r1 e1 err1 _ h2; cases h2
        · intro r1 e1 body1 v1 err1 h1 h2 h3
          cases h1; cases h2
          rw [hu] at h3; cases h3

/-- Witness of C5: from an empty cache and a 200 answer, the call for `pikachu` ends with
exactly the fetched body stored under the request URL. -/
theorem cache_written_only_after_fetch_and_decode_witness :
    ((stubClient 200 pikachuBody (some (NewCache 0))).GetByIDOrName Kind.pokemon
        IdName.target [] ⟨100, 200⟩ "pikachu").cache =
      some ((NewCache 0).CacheResponseForURL 200
        "https://pokeapi.co/api/v2/pokemon/pikachu" pikachuBody) :=
  ((cache_written_only_after_fetch_and_decode IdName.target Kind.pokemon
    (stubClient 200 pikachuBody (some (NewCache 0))) [] ⟨100, 200⟩ "pikachu" (NewCache 0)
    rfl).2.1
    ⟨0, ""⟩ (GoError.errorf "cache miss") pikachuBody ⟨25, "pikachu"⟩ rfl rfl rfl).1

/-- The list methods of both kinds share one body. -/
theorem GetNamesList_eq (c : client) (k : Kind) (L : Target response) (net : List String)
    (limit offset : Int) :
    c.GetNamesList k L net limit offset =
      c.namesListFromURL L net (c.listURL k limit offset) limit offset := by
  cases k <;> rfl

theorem listURL_withCache (c : client) (cache : Option Cache) (k : Kind)
    (limit offset : Int) :
    (c.withCache cache).listURL k limit offset = c.listURL k limit offset := by
  cases k <;> rfl

/-- A list call leaves `c.cache` alone and sends what its one `fetchFromURL` sends. -/
theorem namesListFromURL_frame (c : client) (L : Target response) (net : List String)
    (url : String) (limit offset : Int) :
    (c.namesListFromURL L net url limit offset).cache = c.cache ∧
    (c.namesListFromURL L net url limit offset).net = (c.fetchFromURL net url).2 := by
  unfold client.namesListFromURL
  rcases c.fetchFromURL net url with ⟨res, net1⟩
  cases res with
  | error err => exact ⟨rfl, rfl⟩
  | ok body =>
    dsimp only
    rcases L.Unmarshal body response.zero with ⟨resp, e⟩
    cases e <;> exact ⟨rfl, rfl⟩

/-- The result of a list call and the requests it sends do not depend on the cache. -/
theorem namesListFromURL_withCache (c : client) (cache : Option Cache)
    (L : Target response) (net : List String) (url : String) (limit offset : Int) :
    ((c.withCache cache).namesListFromURL L net url limit offset).ret =
      (c.namesListFromURL L net url limit offset).ret ∧
    ((c.withCache cache).namesListFromURL L net url limit offset).net =
      (c.namesListFromURL L net url limit offset).net := by
  have hf : (c.withCache cache).fetchFromURL net url = c.fetchFromURL net url := rfl
  unfold client.namesListFromURL
  rw [hf]
  rcases c.fetchFromURL net url with ⟨res, net1⟩
  cases res with
  | error err => exact ⟨rfl, rfl⟩
  | ok body =>
    dsimp only
    rcases L.Unmarshal body response.zero with ⟨resp, e⟩
    cases e <;> exact ⟨rfl, rfl⟩

/-- C6: `GetPokemonNamesList` and `GetGenerationNamesList` send exactly one request per
call (whenever the request can be built), leave the cache as it was, return a result that
does not depend on the cache, and two identical calls send two requests whatever the
cache holds. -/
theorem list_calls_never_touch_cache (L : Target response) (k : Kind) (c : client)
    (net : List String) (limit offset : Int)
    (hreq : c.httpClient.NewRequest (c.listURL k limit offset) = none) :
    (c.GetNamesList k L net limit offset).net = net ++ [c.listURL k limit offset] ∧
    (c.GetNamesList k L net limit offset).cache = c.cache ∧
    (∀ cache, ((c.withCache cache).GetNamesList k L net limit offset).ret =
        (c.GetNamesList k L net limit offset).ret ∧
      ((c.withCache cache).GetNamesList k L net limit offset).net =
        (c.GetNamesList k L net limit offset).net) ∧
    ((c.withCache (c.GetNamesList k L net limit offset).cache).GetNamesList k L
        (c.GetNamesList k L net limit offset).net limit offset).net =
      net ++ [c.listURL k limit offset, c.listURL k limit offset] := by
  have h1 := namesListFromURL_frame c L net (c.listURL k limit offset) limit offset
  have hn := fetchFromURL_net c net _ hreq
  refine ⟨?_, ?_, ?_, ?_⟩
  · rw [GetNamesList_eq, h1.2, hn]
  · rw [GetNamesList_eq, h1.1]
  · intro cache
    rw [GetNamesList_eq, GetNamesList_eq, listURL_withCache]
    exact namesListFromURL_withCache c cache L net _ limit offset
  · rw [GetNamesList_eq, listURL_withCache]
    have h2 := namesListFromURL_frame (c.withCache (c.GetNamesList k L net limit offset).cache)
      L (c.GetNamesList k L net limit offset).net (c.listURL k limit offset) limit offset
    rw [h2.2]
    have hn2 := fetchFromURL_net (c.withCache (c.GetNamesList k L net limit offset).cache)
      (c.GetNamesList k L net limit offset).net _ hreq
    rw [hn2, GetNamesList_eq, h1.2, hn]
    simp

/-- Witness of C6: two generation list calls with limit 5 and offset 0 on a client with
an enabled cache send two requests and leave the cache empty. -/
theorem list_calls_never_touch_cache_witness :
    (((stubClient 200 listBody20 (some (NewCache 0))).withCache
        ((stubClient 200 listBody20 (some (NewCache 0))).GetNamesList Kind.generation
          response.target [] 5 0).cache).GetNamesList Kind.generation response.target
        ((stubClient 200 listBody20 (some (NewCache 0))).GetNamesList Kind.generation
          response.target [] 5 0).net 5 0).net =
      ["https://pokeapi.co/api/v2/generation?limit=5&offset=0",
        "https://pokeapi.co/api/v2/generation?limit=5&offset=0"] ∧
    ((stubClient 200 listBody20 (some (NewCache 0))).GetNamesList Kind.generation
        response.target [] 5 0).cache = some (NewCache 0) := by
  have h := list_calls_never_touch_cache response.target Kind.generation
    (stubClient 200 listBody20 (some (NewCache 0))) [] 5 0 rfl
  exact ⟨h.2.2.2, h.2.1⟩

/-- An integer in the range of `int` is not changed by wrapping. -/
theorem wrapInt_of_inInt (x : Int) (h : inInt x) : wrapInt x = x := by
  unfold inInt at h
  unfold wrapInt
  norm_num at h ⊢
  omega

/-- The loop that fills `names` writes, at fill level `n`, the names of the remaining
results after what is already there. -/
theorem fillNames_from (l : List NamedResource) : ∀ (n : Nat) (pre : List String),
    pre.length = n →
    (l.enumFrom n).foldl (fun names ir => names.set ir.1 ir.2.Name)
      (pre ++ List.replicate l.length "") = pre ++ l.map NamedResource.Name := by
  induction l with
  | nil => intro n pre _; simp
  | cons x xs ih =>
    intro n pre hn
    have hset : (pre ++ "" :: List.replicate xs.length "").set n x.Name =
        (pre ++ [x.Name]) ++ List.replicate xs.length "" := by
      subst hn
      simp [List.set_append]
    simp only [List.enumFrom_cons, List.foldl_cons, List.length_cons, List.replicate_succ,
      List.map_cons, hset]
    rw [ih (n + 1) (pre ++ [x.Name]) (by simp [hn])]
    simp

/-- The loop that fills `names` computes the map of `Name` over the results. -/
theorem fillNames_eq_map (l : List NamedResource) :
    fillNames l = l.map NamedResource.Name := by
  have h := fillNames_from l 0 [] rfl
  simpa [fillNames, List.enum] using h

/-- A list call whose fetch and decode succeed returns the filled names and the flag. -/
theorem namesListFromURL_ok (c : client) (L : Target response) (net : List String)
    (url : String) (limit offset : Int) (body : Bytes) (resp : response)
    (hfetch : (c.fetchFromURL net url).1 = Except.ok body)
    (hdec : L.Unmarshal body response.zero = (resp, none)) :
    (c.namesListFromURL L net url limit offset).ret =
      Except.ok (fillNames resp.Results,
        decide (resp.Count > wrapInt (offset + limit))) := by
  unfold client.namesListFromURL
  rcases hfr : c.fetchFromURL net url with ⟨res, net1⟩
  rw [hfr] at hfetch
  cases hfetch
  simp [hdec]

/-- C7: for a list response that decodes with total count `Count`, and a requested limit
and offset whose sum fits an `int`, `GetPokemonNamesList` and `GetGenerationNamesList`
return `hasMore = true` exactly when `Count > offset + limit`, whatever the number of
results in the response. -/
theorem hasMore_iff_count_exceeds_offset_plus_limit (L : Target response) (k : Kind)
    (c : client) (net : List String) (limit offset : Int) (body : Bytes) (resp : response)
    (hfetch : (c.fetchFromURL net (c.listURL k limit offset)).1 = Except.ok body)
    (hdec : L.Unmarshal body response.zero = (resp, none))
    (hsum : inInt (offset + limit)) :
    ∃ names hasMore, (c.GetNamesList k L net limit offset).ret =
        Except.ok (names, hasMore) ∧
      (hasMore = true ↔ resp.Count > offset + limit) := by
  refine ⟨fillNames resp.Results, decide (resp.Count > offset + limit), ?_, ?_⟩
  · rw [GetNamesList_eq, namesListFromURL_ok c L net _ limit offset body resp hfetch hdec,
      wrapInt_of_inInt _ hsum]
  · simp

/-- Witness of C7: count 20 with offset 15 and limit 5 gives `hasMore = false`, count 21
gives `hasMore = true`, on a page of two results. -/
theorem hasMore_iff_count_exceeds_offset_plus_limit_witness :
    ((stubClient 200 listBody20 none).GetNamesList Kind.pokemon
        response.target [] 5 15).ret.map Prod.snd = Except.ok false ∧
    ((stubClient 200 listBody21 none).GetNamesList Kind.pokemon
        response.target [] 5 15).ret.map Prod.snd = Except.ok true := by
  obtain ⟨names0, more0, hret0, hiff0⟩ :=
    hasMore_iff_count_exceeds_offset_plus_limit response.target Kind.pokemon
      (stubClient 200 listBody20 none) [] 5 15 listBody20
      ⟨20, [⟨"generation-i", "u1"⟩, ⟨"generation-ii", "u2"⟩]⟩ rfl rfl (by decide)
  obtain ⟨names1, more1, hret1, hiff1⟩ :=
    hasMore_iff_count_exceeds_offset_plus_limit response.target Kind.pokemon
      (stubClient 200 listBody21 none) [] 5 15 listBody21
      ⟨21, [⟨"generation-i", "u1"⟩, ⟨"generation-ii", "u2"⟩]⟩ rfl rfl (by decide)
  have h0 : more0 = false := by
    cases more0 with
    | false => rfl
    | true => exact absurd (hiff0.1 rfl) (by decide)
  have h1 : more1 = true := hiff1.2 (by decide)
  rw [hret0, hret1, h0, h1]
  exact ⟨rfl, rfl⟩

/-- C8: for a list response that decodes, the names `GetPokemonNamesList` /
`GetGenerationNamesList` return are the `Name` fields of the results in server order:
the same length, and at every index the name of the result at that index. -/
theorem names_are_result_names_in_order (L : Target response) (k : Kind) (c : client)
    (net : List String) (limit offset : Int) (body : Bytes) (resp : response)
    (hfetch : (c.fetchFromURL net (c.listURL k limit offset)).1 = Except.ok body)
    (hdec : L.Unmarshal body response.zero = (resp, none)) :
    ∃ names hasMore, (c.GetNamesList k L net limit offset).ret =
        Except.ok (names, hasMore) ∧
      names = resp.Results.map NamedResource.Name ∧
      names.length = resp.Results.length ∧
      ∀ (i : Nat) (h : i < resp.Results.length),
        names[i]? = some (resp.Results[i]).Name := by
  refine ⟨fillNames resp.Results, decide (resp.Count > wrapInt (offset + limit)), ?_,
    fillNames_eq_map _, ?_, ?_⟩
  · rw [GetNamesList_eq]
    exact namesListFromURL_ok c L net _ limit offset body resp hfetch hdec
  · simp [fillNames_eq_map]
  · intro i h
    simp [fillNames_eq_map, h]

/-- Witness of C8: the first generation page of the live test. -/
theorem names_are_result_names_in_order_witness :
    ∃ names hasMore, ((stubClient 200 listBody20 none).GetNamesList Kind.generation
        response.target [] 5 0).ret = Except.ok (names, hasMore) ∧
      names = [(⟨"generation-i", "u1"⟩ : NamedResource),
        ⟨"generation-ii", "u2"⟩].map NamedResource.Name ∧
      names.length = [(⟨"generation-i", "u1"⟩ : NamedResource),
        ⟨"generation-ii", "u2"⟩].length ∧
      ∀ (i : Nat) (h : i < [(⟨"generation-i", "u1"⟩ : NamedResource),
          ⟨"generation-ii", "u2"⟩].length),
        names[i]? = some ([(⟨"generation-i", "u1"⟩ : NamedResource),
          ⟨"generation-ii", "u2"⟩][i]).Name :=
  names_are_result_names_in_order response.target Kind.generation
    (stubClient 200 listBody20 none) [] 5 0 listBody20
    ⟨20, [⟨"generation-i", "u1"⟩, ⟨"generation-ii", "u2"⟩]⟩ rfl rfl

/-- Counterexample to C9: asked for one name, the server sends two results, and the call
returns both names. -/
theorem more_names_than_limit :
    ((stubClient 200 twoNamesBody none).GetNamesList Kind.pokemon response.target
        [] 1 0).ret = Except.ok (["bulbasaur", "ivysaur"], true) ∧
    ¬ ((["bulbasaur", "ivysaur"].length : Int) ≤ 1) := by
  constructor
  · rfl
  · decide

/-- C9 (amended): the names returned by a successful `GetPokemonNamesList` /
`GetGenerationNamesList` call are as many as the results of the server's response, so at
most `limit` whenever the server sends at most `limit` results. -/
theorem names_length_at_most_limit_of_results (L : Target response) (k : Kind)
    (c : client) (net : List String) (limit offset : Int) (body : Bytes) (resp : response)
    (hfetch : (c.fetchFromURL net (c.listURL k limit offset)).1 = Except.ok body)
    (hdec : L.Unmarshal body response.zero = (resp, none))
    (hlen : (resp.Results.length : Int) ≤ limit) :
    ∃ names hasMore, (c.GetNamesList k L net limit offset).ret =
        Except.ok (names, hasMore) ∧
      names.length = resp.Results.length ∧ (names.length : Int) ≤ limit := by
  have hl : (fillNames resp.Results).length = resp.Results.length := by
    simp [fillNames_eq_map]
  refine ⟨fillNames resp.Results, decide (resp.Count > wrapInt (offset + limit)), ?_,
    hl, ?_⟩
  · rw [GetNamesList_eq]
    exact namesListFromURL_ok c L net _ limit offset body resp hfetch hdec
  · rw [hl]
    exact hlen

/-- Witness of C9 (amended): two results for a limit of 5. -/
theorem names_length_at_most_limit_of_results_witness :
    ∃ names hasMore, ((stubClient 200 twoNamesBody none).GetNamesList Kind.pokemon
        response.target [] 5 0).ret = Except.ok (names, hasMore) ∧
      names.length = [(⟨"bulbasaur", "u1"⟩ : NamedResource), ⟨"ivysaur", "u2"⟩].length ∧
      (names.length : Int) ≤ 5 :=
  names_length_at_most_limit_of_results response.target Kind.pokemon
    (stubClient 200 twoNamesBody none) [] 5 0 twoNamesBody
    ⟨1302, [⟨"bulbasaur", "u1"⟩, ⟨"ivysaur", "u2"⟩]⟩ rfl rfl (by decide)

/-- A sequence of calls on a state that `next` answers with `io.EOF` and no request, and
that neither method changes, never leaves that state. -/
theorem runOps_of_done (next get : ListState → List String → CursorOutcome)
    (s : ListState)
    (hnext : ∀ net, next s net = ⟨Except.error io.EOF, s, net⟩)
    (hget : ∀ net, (get s net).list = s) (ops : List CursorOp) :
    ∀ net, ∀ r ∈ runOps next get ops s net,
      r.out.list = s ∧
        (r.op = CursorOp.next → r.out.ret = Except.error io.EOF ∧ r.out.net = r.before) := by
  induction ops with
  | nil => intro net r hr; cases hr
  | cons op ops ih =>
    intro net r hr
    cases op with
    | next =>
      simp only [runOps, List.mem_cons] at hr
      rcases hr with rfl | hr
      · simp [hnext]
      · rw [hnext] at hr
        exact ih _ r hr
    | get =>
      simp only [runOps, List.mem_cons] at hr
      rcases hr with rfl | hr
      · simp [hget]
      · rw [hget] at hr
        exact ih _ r hr

/-- The method `GetWithContext` of a `PokemonList` leaves the embedded `List` as it was. -/
theorem PokemonList.GetWithContext_keeps_pokemon_list (l : PokemonList) (L : Target response)
    (net : List String) : (l.GetWithContext L net).list = l.toListState := by
  unfold PokemonList.GetWithContext
  dsimp only
  rcases (l.resolver.getPokemonNames L net l.pageSize l.toListState.offset).ret with
    e | ⟨names, hasMore⟩ <;> rfl

/-- The method `GetWithContext` of a `GenerationList` leaves the embedded `List` as it
was. -/
theorem GenerationList.GetWithContext_keeps_generation_list (l : GenerationList) (L : Target response)
    (net : List String) : (l.GetWithContext L net).list = l.toListState := by
  unfold GenerationList.GetWithContext
  dsimp only
  rcases (l.resolver.getGenerationNames L net l.pageSize l.toListState.offset).ret with
    e | ⟨names, hasMore⟩ <;> rfl

/-- C10: once the `done` flag of a `PokemonList` / `GenerationList` is set, in every later
sequence of `Next` and `Get` calls, of any length and against any server, each `Next`
returns `io.EOF` with no names and sends no request, and every call leaves `page`,
`pageSize` and `done` as they were; so `done` is never cleared. -/
theorem done_cursor_returns_eof_forever (L : Target response) (ops : List CursorOp)
    (net : List String) :
    (∀ l : PokemonList, l.done = true → ∀ r ∈ l.calls L ops net,
      r.out.list = l.toListState ∧
        (r.op = CursorOp.next →
          r.out.ret = Except.error io.EOF ∧ r.out.net = r.before)) ∧
    (∀ l : GenerationList, l.done = true → ∀ r ∈ l.calls L ops net,
      r.out.list = l.toListState ∧
        (r.op = CursorOp.next →
          r.out.ret = Except.error io.EOF ∧ r.out.net = r.before)) := by
  constructor
  · intro l hd
    exact runOps_of_done _ _ l.toListState
      (fun n => by simp [PokemonList.Next, hd])
      (fun n => PokemonList.GetWithContext_keeps_pokemon_list _ L n) ops net
  · intro l hd
    exact runOps_of_done _ _ l.toListState
      (fun n => by simp [GenerationList.Next, hd])
      (fun n => GenerationList.GetWithContext_keeps_generation_list _ L n) ops net

/-- Witness of C10: on a cursor with `done` set, the third call of the sequence `Next`,
`Get`, `Next` returns `io.EOF`, sends nothing new and leaves the cursor as it was. -/
theorem done_cursor_returns_eof_forever_witness :
    (donePokemonList.Next response.target
        [donePokemonList.resolver.client.pokemonListURL 5 10]).list =
      donePokemonList.toListState ∧
    (CursorOp.next = CursorOp.next →
      (donePokemonList.Next response.target
          [donePokemonList.resolver.client.pokemonListURL 5 10]).ret =
        Except.error io.EOF ∧
      (donePokemonList.Next response.target
          [donePokemonList.resolver.client.pokemonListURL 5 10]).net =
        [donePokemonList.resolver.client.pokemonListURL 5 10]) :=
  (done_cursor_returns_eof_forever response.target
    [CursorOp.next, CursorOp.get, CursorOp.next] []).1 donePokemonList rfl
    ⟨CursorOp.next, [donePokemonList.resolver.client.pokemonListURL 5 10],
      donePokemonList.toListState,
      donePokemonList.Next response.target
        [donePokemonList.resolver.client.pokemonListURL 5 10]⟩
    (List.Mem.tail _ (List.Mem.tail _ (List.Mem.head _)))

/-- The method `Next` of either cursor: `io.EOF` when done, else the list fetch of the
current page followed by the update of the cursor. -/
theorem cursorNext_eq (k : Kind) (r : Resolver) (s : ListState) (L : Target response)
    (net : List String) :
    cursorNext k r s L net =
      if s.done then ⟨Except.error io.EOF, s, net⟩
      else s.afterFetch (r.client.GetNamesList k L net s.pageSize s.offset) := by
  cases k <;> rfl

/-- The requests a list call sends: the one of its `fetchFromURL`. -/
theorem GetNamesList_net (c : client) (k : Kind) (L : Target response) (net : List String)
    (limit offset : Int) :
    (c.GetNamesList k L net limit offset).net =
      (c.fetchFromURL net (c.listURL k limit offset)).2 := by
  rw [GetNamesList_eq]
  exact (namesListFromURL_frame c L net _ limit offset).2

/-- The value wrapped to an `int` is an `int` and differs from the value by a multiple of
`2 ^ 64`. -/
theorem wrapInt_spec (x : Int) : inInt (wrapInt x) ∧ (wrapInt x - x) % 2 ^ 64 = 0 := by
  unfold inInt wrapInt
  norm_num
  omega

/-- C11: on a cursor that is not done, `Next` makes one list fetch for the current page:
the list call with limit `pageSize` and the offset `(page-1)*pageSize` of Go's `int`
arithmetic, which is the product `(page - 1) * pageSize` itself when nothing overflows; it
sends that one request, or none when the request cannot be built.  If the fetch succeeds
with `hasMore = false` it returns the fetched names, sets `done` and leaves `page` as it
was, and the call after it returns `io.EOF` without a request; if it succeeds with
`hasMore = true` it returns the fetched names, leaves `done` false and increments `page`
by one as Go's `page++` does: the new page is the `int` congruent to `page + 1` modulo
`2 ^ 64`, so `page + 1` unless `page` is the largest `int`; if the fetch fails it returns
the error and leaves the cursor as it was. -/
theorem next_on_active_cursor (L : Target response) (k : Kind) (r : Resolver)
    (s : ListState) (net : List String) (hd : s.done = false) :
    (cursorNext k r s L net).net = (r.client.GetNamesList k L net s.pageSize
        (wrapInt (wrapInt (s.page - 1) * s.pageSize))).net ∧
    (r.client.httpClient.NewRequest (r.client.listURL k s.pageSize
        (wrapInt (wrapInt (s.page - 1) * s.pageSize))) = none →
      (cursorNext k r s L net).net = net ++ [(r.client.listURL k s.pageSize
        (wrapInt (wrapInt (s.page - 1) * s.pageSize)))]) ∧
    (∀ e, r.client.httpClient.NewRequest (r.client.listURL k s.pageSize
        (wrapInt (wrapInt (s.page - 1) * s.pageSize))) = some e →
      (cursorNext k r s L net).net = net) ∧
    (inInt (s.page - 1) → inInt ((s.page - 1) * s.pageSize) →
      wrapInt (wrapInt (s.page - 1) * s.pageSize) = (s.page - 1) * s.pageSize) ∧
    (∀ names, (r.client.GetNamesList k L net s.pageSize
        (wrapInt (wrapInt (s.page - 1) * s.pageSize))).ret = Except.ok (names, false) →
      (cursorNext k r s L net).ret = Except.ok names ∧
      (cursorNext k r s L net).list = { s with done := true } ∧
      (cursorNext k r (cursorNext k r s L net).list L (cursorNext k r s L net).net).ret = Except.error io.EOF ∧
      (cursorNext k r (cursorNext k r s L net).list L (cursorNext k r s L net).net).net = (cursorNext k r s L net).net) ∧
    (∀ names, (r.client.GetNamesList k L net s.pageSize
        (wrapInt (wrapInt (s.page - 1) * s.pageSize))).ret = Except.ok (names, true) →
      (cursorNext k r s L net).ret = Except.ok names ∧
      (cursorNext k r s L net).list = { s with page := wrapInt (s.page + 1) } ∧
      (cursorNext k r s L net).list.done = false ∧
      (cursorNext k r s L net).list.pageSize = s.pageSize ∧
      inInt (cursorNext k r s L net).list.page ∧
      ((cursorNext k r s L net).list.page - (s.page + 1)) % 2 ^ 64 = 0 ∧
      (inInt (s.page + 1) → (cursorNext k r s L net).list.page = s.page + 1)) ∧
    (∀ err, (r.client.GetNamesList k L net s.pageSize
        (wrapInt (wrapInt (s.page - 1) * s.pageSize))).ret = Except.error err →
      (cursorNext k r s L net).ret = Except.error err ∧ (cursorNext k r s L net).list = s) := by
  have hnext : cursorNext k r s L net = s.afterFetch (r.client.GetNamesList k L net s.pageSize
        (wrapInt (wrapInt (s.page - 1) * s.pageSize))) := by
    rw [cursorNext_eq]
    simp [hd, ListState.offset]
  have hfnet := GetNamesList_net r.client k L net s.pageSize
    (wrapInt (wrapInt (s.page - 1) * s.pageSize))
  have hnet : (cursorNext k r s L net).net = (r.client.GetNamesList k L net s.pageSize
        (wrapInt (wrapInt (s.page - 1) * s.pageSize))).net := by
    rw [hnext]
    unfold ListState.afterFetch
    rcases (r.client.GetNamesList k L net s.pageSize
        (wrapInt (wrapInt (s.page - 1) * s.pageSize))).ret with e | ⟨names, hasMore⟩
    · rfl
    · cases hasMore <;> rfl
  refine ⟨hnet, ?_, ?_, ?_, ?_, ?_, ?_⟩
  · intro hreq
    rw [hnet, hfnet, fetchFromURL_net _ _ _ hreq]
  · intro e hreq
    rw [hnet, hfnet, fetchFromURL_net_of_bad_request _ _ _ e hreq]
  · intro h1 h2
    rw [wrapInt_of_inInt _ h1, wrapInt_of_inInt _ h2]
  · intro names hret
    have hout : cursorNext k r s L net =
        ⟨Except.ok names, { s with done := true }, (r.client.GetNamesList k L net s.pageSize
        (wrapInt (wrapInt (s.page - 1) * s.pageSize))).net⟩ := by
      rw [hnext]
      simp [ListState.afterFetch, hret]
    rw [hout]
    refine ⟨rfl, rfl, ?_, ?_⟩ <;> simp [cursorNext_eq]
  · intro names hret
    have hout : cursorNext k r s L net =
        ⟨Except.ok names, { s with page := wrapInt (s.page + 1) }, (r.client.GetNamesList k L net s.pageSize
        (wrapInt (wrapInt (s.page - 1) * s.pageSize))).net⟩ := by
      rw [hnext]
      simp [ListState.afterFetch, hret]
    rw [hout]
    exact ⟨rfl, rfl, hd, rfl, (wrapInt_spec _).1, (wrapInt_spec _).2,
      fun h => wrapInt_of_inInt _ h⟩
  · intro err hret
    rw [hnext]
    simp [ListState.afterFetch, hret]

/-- Witness of C11 on page 3 and page 4 of a list of 20 names with page size 5: `Next` on
page 3 requests limit 5 and offset 10, returns the names and moves to page 4; `Next` on
page 4 requests offset 15, delivers that last page and sets `done`, and the call after
it returns `io.EOF`. -/
theorem next_on_active_cursor_witness :
    ((cursorNext Kind.generation ⟨stubClient 200 listBody20 none⟩ pageThreeList
        response.target []).net =
        ["https://pokeapi.co/api/v2/generation?limit=5&offset=10"] ∧
      (cursorNext Kind.generation ⟨stubClient 200 listBody20 none⟩ pageThreeList
        response.target []).ret = Except.ok ["generation-i", "generation-ii"] ∧
      (cursorNext Kind.generation ⟨stubClient 200 listBody20 none⟩ pageThreeList
        response.target []).list.page = 3 + 1) ∧
    ((cursorNext Kind.generation ⟨stubClient 200 listBody20 none⟩ pageFourList
        response.target []).net =
        ["https://pokeapi.co/api/v2/generation?limit=5&offset=15"] ∧
      (cursorNext Kind.generation ⟨stubClient 200 listBody20 none⟩ pageFourList
        response.target []).ret = Except.ok ["generation-i", "generation-ii"] ∧
      (cursorNext Kind.generation ⟨stubClient 200 listBody20 none⟩ pageFourList
        response.target []).list = { pageFourList with done := true } ∧
      (cursorNext Kind.generation ⟨stubClient 200 listBody20 none⟩
        (cursorNext Kind.generation ⟨stubClient 200 listBody20 none⟩ pageFourList
          response.target []).list response.target
        (cursorNext Kind.generation ⟨stubClient 200 listBody20 none⟩ pageFourList
          response.target []).net).ret = Except.error io.EOF) := by
  have h3 := next_on_active_cursor response.target Kind.generation
    ⟨stubClient 200 listBody20 none⟩ pageThreeList [] rfl
  have h4 := next_on_active_cursor response.target Kind.generation
    ⟨stubClient 200 listBody20 none⟩ pageFourList [] rfl
  have h3more := h3.2.2.2.2.2.1 ["generation-i", "generation-ii"] rfl
  have h4last := h4.2.2.2.2.1 ["generation-i", "generation-ii"] rfl
  exact ⟨⟨h3.2.1 rfl, h3more.1, h3more.2.2.2.2.2.2 (by decide)⟩,
    ⟨h4.2.1 rfl, h4last.1, h4last.2.1, h4last.2.2.1⟩⟩

/-- The method `GetWithContext` of either cursor: the list fetch of the current page, of
which the names or the error are returned; the cursor is left alone. -/
theorem cursorGet_eq (k : Kind) (r : Resolver) (s : ListState) (L : Target response)
    (net : List String) :
    cursorGet k r s L net =
      ⟨(r.client.GetNamesList k L net s.pageSize s.offset).ret.map Prod.fst, s,
        (r.client.GetNamesList k L net s.pageSize s.offset).net⟩ := by
  cases k
  · show PokemonList.GetWithContext _ L net = _
    unfold PokemonList.GetWithContext
    show (match (r.client.GetNamesList Kind.pokemon L net s.pageSize s.offset).ret with
      | Except.error err => _
      | Except.ok (names, _) => _) = _
    rcases (r.client.GetNamesList Kind.pokemon L net s.pageSize s.offset).ret with
      e | ⟨names, hasMore⟩ <;> rfl
  · show GenerationList.GetWithContext _ L net = _
    unfold GenerationList.GetWithContext
    show (match (r.client.GetNamesList Kind.generation L net s.pageSize s.offset).ret with
      | Except.error err => _
      | Except.ok (names, _) => _) = _
    rcases (r.client.GetNamesList Kind.generation L net s.pageSize s.offset).ret with
      e | ⟨names, hasMore⟩ <;> rfl

/-- What `fetchFromURL` returns depends on the earlier requests only through the answer
of the transport. -/
theorem fetchFromURL_fst_congr (c : client) (net1 net2 : List String) (url : String)
    (h : c.httpClient.Do net1 url = c.httpClient.Do net2 url) :
    (c.fetchFromURL net1 url).1 = (c.fetchFromURL net2 url).1 := by
  unfold client.fetchFromURL
  rw [h]
  cases c.httpClient.NewRequest url with
  | some e => rfl
  | none =>
    cases c.httpClient.Do net2 url with
    | error e => rfl
    | ok resp =>
      by_cases h200 : resp.StatusCode = 200
      · simp [h200]
      · by_cases h404 : resp.StatusCode = 404 <;> simp [h200, h404]

/-- What a list call returns is decided by what its `fetchFromURL` returns. -/
theorem namesListFromURL_ret_congr (c : client) (L : Target response)
    (net1 net2 : List String) (url : String) (limit offset : Int)
    (h : (c.fetchFromURL net1 url).1 = (c.fetchFromURL net2 url).1) :
    (c.namesListFromURL L net1 url limit offset).ret =
      (c.namesListFromURL L net2 url limit offset).ret := by
  unfold client.namesListFromURL
  rcases h1 : c.fetchFromURL net1 url with ⟨res1, n1⟩
  rcases h2 : c.fetchFromURL net2 url with ⟨res2, n2⟩
  rw [h1, h2] at h
  cases h
  cases res1 with
  | error err => rfl
  | ok body =>
    dsimp only
    rcases L.Unmarshal body response.zero with ⟨resp, e⟩
    cases e <;> rfl

/-- C12: on every cursor state, done or not, `Get` / `GetWithContext` makes the list fetch
of the current page only (one request whenever the request can be built), returns its
names or its error whatever `hasMore` is, and leaves `page`, `pageSize` and `done` as they
were; against a server whose answer for that page does not change, a second `Get`
returns what the first returned. -/
theorem get_fetches_current_page_and_keeps_cursor (L : Target response) (k : Kind)
    (r : Resolver) (s : ListState) (net : List String) :
    (cursorGet k r s L net).list = s ∧
    (cursorGet k r s L net).ret =
      (r.client.GetNamesList k L net s.pageSize s.offset).ret.map Prod.fst ∧
    (cursorGet k r s L net).net =
      (r.client.GetNamesList k L net s.pageSize s.offset).net ∧
    (r.client.httpClient.NewRequest (r.client.listURL k s.pageSize s.offset) = none →
      (cursorGet k r s L net).net = net ++ [r.client.listURL k s.pageSize s.offset]) ∧
    ((∀ sent, r.client.httpClient.Do sent (r.client.listURL k s.pageSize s.offset) =
        r.client.httpClient.Do net (r.client.listURL k s.pageSize s.offset)) →
      (cursorGet k r (cursorGet k r s L net).list L (cursorGet k r s L net).net).ret =
        (cursorGet k r s L net).ret) := by
  refine ⟨?_, ?_, ?_, ?_, ?_⟩
  · rw [cursorGet_eq]
  · rw [cursorGet_eq]
  · rw [cursorGet_eq]
  · intro hreq
    rw [cursorGet_eq]
    show (r.client.GetNamesList k L net s.pageSize s.offset).net = _
    rw [GetNamesList_net, fetchFromURL_net _ _ _ hreq]
  · intro hsame
    rw [cursorGet_eq k r s L net]
    rw [cursorGet_eq]
    show (r.client.GetNamesList k L _ s.pageSize s.offset).ret.map Prod.fst =
      (r.client.GetNamesList k L net s.pageSize s.offset).ret.map Prod.fst
    rw [GetNamesList_eq, GetNamesList_eq]
    rw [namesListFromURL_ret_congr r.client L _ net _ s.pageSize s.offset
      (fetchFromURL_fst_congr r.client _ net _ (hsame _))]

/-- Witness of C12: `Get` on a cursor whose `done` flag is set still fetches page 3 and
leaves the cursor as it was, and a second `Get` returns the same names. -/
theorem get_fetches_current_page_and_keeps_cursor_witness :
    (cursorGet Kind.pokemon ⟨stubClient 200 listBody20 none⟩ donePokemonList.toListState
        response.target []).net = ["https://pokeapi.co/api/v2/pokemon?limit=5&offset=10"] ∧
    (cursorGet Kind.pokemon ⟨stubClient 200 listBody20 none⟩
        (cursorGet Kind.pokemon ⟨stubClient 200 listBody20 none⟩
          donePokemonList.toListState response.target []).list response.target
        (cursorGet Kind.pokemon ⟨stubClient 200 listBody20 none⟩
          donePokemonList.toListState response.target []).net).ret =
      (cursorGet Kind.pokemon ⟨stubClient 200 listBody20 none⟩
        donePokemonList.toListState response.target []).ret := by
  have h := get_fetches_current_page_and_keeps_cursor response.target Kind.pokemon
    ⟨stubClient 200 listBody20 none⟩ donePokemonList.toListState []
  exact ⟨h.2.2.2.1 rfl, h.2.2.2.2 (fun _ => rfl)⟩

/-- The calls made on the cursor of a kind are those of `runOps` on its two methods. -/
theorem cursorCalls_eq (k : Kind) (r : Resolver) (s : ListState) (L : Target response)
    (ops : List CursorOp) (net : List String) :
    cursorCalls k r s L ops net =
      runOps (fun s n => cursorNext k r s L n) (fun s n => cursorGet k r s L n)
        ops s net := by
  cases k <;> rfl

/-- A property of cursor states that both methods keep holds of every state a sequence of
calls finds, and what it implies for one call holds for every call of the sequence. -/
theorem runOps_invariant (next get : ListState → List String → CursorOutcome)
    (Inv : ListState → Prop) (P : CallRecord → Prop)
    (hnext : ∀ s net, Inv s →
      Inv (next s net).list ∧ P ⟨CursorOp.next, net, s, next s net⟩)
    (hget : ∀ s net, Inv s →
      Inv (get s net).list ∧ P ⟨CursorOp.get, net, s, get s net⟩)
    (ops : List CursorOp) :
    ∀ s net, Inv s → ∀ r ∈ runOps next get ops s net, P r := by
  induction ops with
  | nil => intro s net _ r hr; cases hr
  | cons op ops ih =>
    intro s net hs r hr
    cases op with
    | next =>
      simp only [runOps, List.mem_cons] at hr
      rcases hr with rfl | hr
      · exact (hnext s net hs).2
      · exact ih _ _ (hnext s net hs).1 r hr
    | get =>
      simp only [runOps, List.mem_cons] at hr
      rcases hr with rfl | hr
      · exact (hget s net hs).2
      · exact ih _ _ (hget s net hs).1 r hr

/-- The method `Next` of either cursor keeps `pageSize` and sends nothing, or the request
of the list URL with limit `pageSize` and the offset of the page it finds. -/
theorem cursorNext_pageSize_and_request (k : Kind) (r : Resolver) (s : ListState)
    (L : Target response) (net : List String) :
    (cursorNext k r s L net).list.pageSize = s.pageSize ∧
    ((cursorNext k r s L net).net = net ∨
      (cursorNext k r s L net).net = net ++ [r.client.listURL k s.pageSize s.offset]) := by
  rw [cursorNext_eq]
  cases hd : s.done with
  | true => exact ⟨rfl, Or.inl rfl⟩
  | false =>
    have hn := GetNamesList_net r.client k L net s.pageSize s.offset
    have hf : (r.client.fetchFromURL net (r.client.listURL k s.pageSize s.offset)).2 = net ∨
        (r.client.fetchFromURL net (r.client.listURL k s.pageSize s.offset)).2 =
          net ++ [r.client.listURL k s.pageSize s.offset] := by
      cases hreq : r.client.httpClient.NewRequest (r.client.listURL k s.pageSize s.offset) with
      | none => exact Or.inr (fetchFromURL_net _ _ _ hreq)
      | some e => exact Or.inl (fetchFromURL_net_of_bad_request _ _ _ e hreq)
    rw [← hn] at hf
    simp only [Bool.false_eq_true, if_false]
    unfold ListState.afterFetch
    rcases (r.client.GetNamesList k L net s.pageSize s.offset).ret with
      e | ⟨names, hasMore⟩
    · exact ⟨rfl, hf⟩
    · cases hasMore <;> exact ⟨rfl, hf⟩

/-- The method `GetWithContext` of either cursor sends nothing, or the request of the
list URL with limit `pageSize` and the offset of the page it finds. -/
theorem cursorGet_request (k : Kind) (r : Resolver) (s : ListState)
    (L : Target response) (net : List String) :
    (cursorGet k r s L net).net = net ∨
      (cursorGet k r s L net).net = net ++ [r.client.listURL k s.pageSize s.offset] := by
  rw [cursorGet_eq]
  show (r.client.GetNamesList k L net s.pageSize s.offset).net = net ∨
    (r.client.GetNamesList k L net s.pageSize s.offset).net = _
  rw [GetNamesList_net]
  cases hreq : r.client.httpClient.NewRequest (r.client.listURL k s.pageSize s.offset) with
  | none => exact Or.inr (fetchFromURL_net _ _ _ hreq)
  | some e => exact Or.inl (fetchFromURL_net_of_bad_request _ _ _ e hreq)

/-- C13: in every finite sequence of `Get` and `Next` calls on a cursor built by
`PokemonList(page, pageSize)` / `GenerationList(page, pageSize)`, every call finds and
leaves `pageSize` as given at construction, and the request a call sends, if it sends
one, is the list URL with limit `pageSize` and the offset `(page-1)*pageSize` computed, in
Go's `int` arithmetic, from the page the call finds; that offset is the product
`(page - 1) * pageSize` itself whenever `page - 1` and the product fit an `int`. -/
theorem page_size_fixed_and_offset_from_current_page (L : Target response) (k : Kind)
    (r : Resolver) (page pageSize : Int) (ops : List CursorOp) (net : List String) :
    ∀ call ∈ cursorCalls k r (r.newList k page pageSize) L ops net,
      call.found.pageSize = pageSize ∧
      call.out.list.pageSize = pageSize ∧
      (call.out.net = call.before ∨
        call.out.net = call.before ++
          [r.client.listURL k pageSize
            (wrapInt (wrapInt (call.found.page - 1) * pageSize))]) ∧
      (inInt (call.found.page - 1) → inInt ((call.found.page - 1) * pageSize) →
        wrapInt (wrapInt (call.found.page - 1) * pageSize) =
          (call.found.page - 1) * pageSize) := by
  rw [cursorCalls_eq]
  have harith : ∀ p : Int, inInt (p - 1) → inInt ((p - 1) * pageSize) →
      wrapInt (wrapInt (p - 1) * pageSize) = (p - 1) * pageSize := by
    intro p h1 h2
    rw [wrapInt_of_inInt _ h1, wrapInt_of_inInt _ h2]
  refine runOps_invariant _ _ (fun s => s.pageSize = pageSize) _ ?_ ?_ ops _ net ?_
  · intro s n hs
    have h := cursorNext_pageSize_and_request k r s L n
    rw [hs] at h
    exact ⟨h.1, hs, h.1, by simpa [ListState.offset, hs] using h.2, harith _⟩
  · intro s n hs
    have h := cursorGet_request k r s L n
    have hl : (cursorGet k r s L n).list = s := by rw [cursorGet_eq]
    rw [hs] at h
    exact ⟨by rw [hl]; exact hs, hs, by rw [hl]; exact hs,
      by simpa [ListState.offset, hs] using h, harith _⟩
  · cases k <;> rfl

/-- Witness of C13: the third call of `Get`, `Next`, `Next` on `PokemonList(1, 5)` finds
page 2 and page size 5 and sends the request with limit 5 and offset 5. -/
theorem page_size_fixed_and_offset_from_current_page_witness :
    thirdCall.found.pageSize = 5 ∧
    thirdCall.out.list.pageSize = 5 ∧
    (thirdCall.out.net = thirdCall.before ∨
      thirdCall.out.net = thirdCall.before ++
        [twoNamesResolver.client.listURL Kind.pokemon 5
          (wrapInt (wrapInt (thirdCall.found.page - 1) * 5))]) ∧
    (inInt (thirdCall.found.page - 1) → inInt ((thirdCall.found.page - 1) * 5) →
      wrapInt (wrapInt (thirdCall.found.page - 1) * 5) =
        (thirdCall.found.page - 1) * 5) :=
  page_size_fixed_and_offset_from_current_page response.target Kind.pokemon
    twoNamesResolver 1 5 [CursorOp.get, CursorOp.next, CursorOp.next] [] thirdCall
    (List.Mem.tail _ (List.Mem.tail _ (List.Mem.head _)))

/-- A list call for a page the server serves returns the names of that page, with
`hasMore` computed from the length of the server's list. -/
theorem GetNamesList_of_servesPage (c : client) (L : Target response) (k : Kind)
    (names : List String) (n o : Nat) (net : List String)
    (h : servesPage c L k names n o) :
    (c.GetNamesList k L net n o).ret =
      Except.ok ((names.drop o).take n,
        decide ((names.length : Int) > wrapInt ((o : Int) + (n : Int)))) := by
  obtain ⟨hreq, hdo⟩ := h
  obtain ⟨body, results, hsrv, hdec, hres⟩ := hdo net
  have hfetch : (c.fetchFromURL net (c.listURL k n o)).1 = Except.ok body := by
    simp [client.fetchFromURL, hreq, hsrv]
  rw [GetNamesList_eq,
    namesListFromURL_ok c L net _ n o body ⟨names.length, results⟩ hfetch hdec,
    fillNames_eq_map, hres]

/-- What `Next` returns after a list fetch that succeeded. -/
theorem afterFetch_ret_of_ok (s : ListState) (fetched : Outcome (List String × Bool))
    (names : List String) (hasMore : Bool) (h : fetched.ret = Except.ok (names, hasMore)) :
    (s.afterFetch fetched).ret = Except.ok names := by
  unfold ListState.afterFetch
  rw [h]
  cases hasMore <;> rfl

/-- The cursor a resolver builds: the given page and page size, `limit` zero, not done. -/
theorem newList_eq (r : Resolver) (k : Kind) (page pageSize : Int) :
    r.newList k page pageSize = ⟨page, pageSize, 0, false⟩ := by
  cases k <;> rfl

/-- C14: against a server that holds the ordered list `names` and answers limit `n`,
offset `o` with the count `names.length` and the results `names[o .. o+n)`, for every
page size `k > 0` below `names.length` (with `2k` a page size, so an `int`): the two
`Next` calls on a fresh cursor of page 1 and size `k` succeed with `names[0 .. k)` and
`names[k .. 2k)`, `Get` on a fresh cursor of page 1 and size `2k` succeeds with
`names[0 .. 2k)`, and the two pages concatenated are that result. -/
theorem two_next_pages_concatenate_to_double_page (L : Target response) (kind : Kind)
    (r : Resolver) (names : List String) (k : Nat) (net net2 : List String)
    (hk : 0 < k) (hlen : k < names.length) (h2k : inInt (((2 * k : Nat) : Int)))
    (h1 : servesPage r.client L kind names k 0)
    (h2 : servesPage r.client L kind names k k)
    (h3 : servesPage r.client L kind names (2 * k) 0) :
    (cursorNext kind r (r.newList kind 1 k) L net).ret = Except.ok (names.take k) ∧
    (cursorNext kind r (cursorNext kind r (r.newList kind 1 k) L net).list L
        (cursorNext kind r (r.newList kind 1 k) L net).net).ret =
      Except.ok ((names.drop k).take k) ∧
    (cursorGet kind r (r.newList kind 1 ((2 * k : Nat) : Int)) L net2).ret =
      Except.ok (names.take (2 * k)) ∧
    names.take k ++ (names.drop k).take k = names.take (2 * k) := by
  have hkInt : inInt (k : Int) := by
    unfold inInt at h2k ⊢
    push_cast at h2k
    norm_num at h2k ⊢
    omega
  have hw0 : wrapInt 0 = 0 := by norm_num [wrapInt]
  have hw1 : wrapInt 1 = 1 := by norm_num [wrapInt]
  have hw2 : wrapInt 2 = 2 := by norm_num [wrapInt]
  have hwk : wrapInt (k : Int) = k := wrapInt_of_inInt _ hkInt
  have hoff1 : ∀ ps : Int, (⟨1, ps, 0, false⟩ : ListState).offset = 0 := by
    intro ps
    simp [ListState.offset, hw0]
  have hoff2 : (⟨2, (k : Int), 0, false⟩ : ListState).offset = k := by
    simp [ListState.offset, hw1, hwk]
  -- the first `Next`: page 1, more to follow
  have hfetch1 := GetNamesList_of_servesPage r.client L kind names k 0 net h1
  have hmore : decide ((names.length : Int) > wrapInt (((0 : Nat) : Int) + (k : Int))) =
      true := by
    simp only [Nat.cast_zero, zero_add, hwk, decide_eq_true_eq]
    exact_mod_cast hlen
  rw [hmore, List.drop_zero] at hfetch1
  have hfirst : cursorNext kind r (r.newList kind 1 k) L net =
      ⟨Except.ok (names.take k), ⟨2, k, 0, false⟩,
        (r.client.GetNamesList kind L net k ((0 : Nat) : Int)).net⟩ := by
    rw [cursorNext_eq, newList_eq]
    simp only [Bool.false_eq_true, if_false, hoff1]
    unfold ListState.afterFetch
    simp only [Nat.cast_zero] at hfetch1 ⊢
    rw [hfetch1]
    simp [hw2]
  -- the second `Next`: page 2
  have hsecond : ∀ n, (cursorNext kind r ⟨2, k, 0, false⟩ L n).ret =
      Except.ok ((names.drop k).take k) := by
    intro n
    rw [cursorNext_eq]
    simp only [Bool.false_eq_true, if_false, hoff2]
    exact afterFetch_ret_of_ok _ _ _ _
      (GetNamesList_of_servesPage r.client L kind names k k n h2)
  -- `Get` on the cursor of twice the page size
  have hget : (cursorGet kind r (r.newList kind 1 ((2 * k : Nat) : Int)) L net2).ret =
      Except.ok (names.take (2 * k)) := by
    rw [cursorGet_eq, newList_eq]
    simp only [hoff1]
    have h := GetNamesList_of_servesPage r.client L kind names (2 * k) 0 net2 h3
    simp only [Nat.cast_zero, List.drop_zero] at h
    rw [h]
    rfl
  refine ⟨?_, ?_, hget, ?_⟩
  · rw [hfirst]
  · rw [hfirst]
    exact hsecond _
  · rw [two_mul, List.take_add]

set_option maxRecDepth 8000

/-- Witness of C14 with page size 5, the case of the live test, on a server holding
eleven names. -/
theorem two_next_pages_concatenate_to_double_page_witness :
    (cursorNext Kind.pokemon pagingResolver (pagingResolver.newList Kind.pokemon 1 5)
        response.target []).ret = Except.ok ["n1", "n2", "n3", "n4", "n5"] ∧
    (cursorNext Kind.pokemon pagingResolver
        (cursorNext Kind.pokemon pagingResolver (pagingResolver.newList Kind.pokemon 1 5)
          response.target []).list response.target
        (cursorNext Kind.pokemon pagingResolver (pagingResolver.newList Kind.pokemon 1 5)
          response.target []).net).ret = Except.ok ["n6", "n7", "n8", "n9", "n10"] ∧
    (cursorGet Kind.pokemon pagingResolver (pagingResolver.newList Kind.pokemon 1 10)
        response.target []).ret =
      Except.ok ["n1", "n2", "n3", "n4", "n5", "n6", "n7", "n8", "n9", "n10"] ∧
    ["n1", "n2", "n3", "n4", "n5"] ++ ["n6", "n7", "n8", "n9", "n10"] =
      ["n1", "n2", "n3", "n4", "n5", "n6", "n7", "n8", "n9", "n10"] :=
  two_next_pages_concatenate_to_double_page response.target Kind.pokemon pagingResolver
    elevenNames 5 [] [] (by decide) (by decide) (by decide)
    ⟨rfl, fun _ => ⟨pageOneBody,
      [⟨"n1", ""⟩, ⟨"n2", ""⟩, ⟨"n3", ""⟩, ⟨"n4", ""⟩, ⟨"n5", ""⟩], rfl, rfl, rfl⟩⟩
    ⟨rfl, fun _ => ⟨pageTwoBody,
      [⟨"n6", ""⟩, ⟨"n7", ""⟩, ⟨"n8", ""⟩, ⟨"n9", ""⟩, ⟨"n10", ""⟩], rfl, rfl, rfl⟩⟩
    ⟨rfl, fun _ => ⟨firstTenBody,
      [⟨"n1", ""⟩, ⟨"n2", ""⟩, ⟨"n3", ""⟩, ⟨"n4", ""⟩, ⟨"n5", ""⟩, ⟨"n6", ""⟩,
        ⟨"n7", ""⟩, ⟨"n8", ""⟩, ⟨"n9", ""⟩, ⟨"n10", ""⟩], rfl, rfl, rfl⟩⟩

/-- Counterexample to C15: `PokemonList(3, 5)` is created on page 3, not on page 1. -/
theorem cursor_created_on_the_page_asked_for :
    (twoNamesResolver.PokemonList 3 5).page = 3 ∧
    (twoNamesResolver.PokemonList 3 5).page ≠ 1 ∧
    (twoNamesResolver.GenerationList 3 5).page ≠ 1 := by
  refine ⟨rfl, ?_, ?_⟩ <;> decide

/-- C15 (amended): every cursor returned by `Resolver.PokemonList` and
`Resolver.GenerationList` is created with `page` and `pageSize` equal to the arguments
(so on page 1 when the caller passes 1), with `limit` zero and with the `done` flag
false, for every argument. -/
theorem cursor_created_with_given_page_and_not_done (r : Resolver)
    (page pageSize : Int) :
    ((r.PokemonList page pageSize).page = page ∧
      (r.PokemonList page pageSize).pageSize = pageSize ∧
      (r.PokemonList page pageSize).limit = 0 ∧
      (r.PokemonList page pageSize).done = false ∧
      (r.PokemonList 1 pageSize).page = 1) ∧
    ((r.GenerationList page pageSize).page = page ∧
      (r.GenerationList page pageSize).pageSize = pageSize ∧
      (r.GenerationList page pageSize).limit = 0 ∧
      (r.GenerationList page pageSize).done = false ∧
      (r.GenerationList 1 pageSize).page = 1) :=
  ⟨⟨rfl, rfl, rfl, rfl, rfl⟩, ⟨rfl, rfl, rfl, rfl, rfl⟩⟩

/-- Appending to the same string is injective. -/
theorem append_left_cancel_string (p a b : String) (h : p ++ a = p ++ b) : a = b := by
  have hd := congrArg String.data h
  simp only [String.data_append, List.append_cancel_left_eq] at hd
  exact String.ext hd

/-- No Pokemon URL is a generation URL. -/
theorem pokemonURL_ne_generationURL (c : client) (a b : String) :
    c.pokemonURL a ≠ c.generationURL b := by
  intro h
  have hd := congrArg String.data h
  have hp : "/pokemon/".data = ['/', 'p', 'o', 'k', 'e', 'm', 'o', 'n', '/'] := rfl
  have hg : "/generation/".data =
      ['/', 'g', 'e', 'n', 'e', 'r', 'a', 't', 'i', 'o', 'n', '/'] := rfl
  simp only [client.pokemonURL, client.generationURL, String.data_append, hp, hg,
    List.append_assoc, List.append_cancel_left_eq, List.cons_append, List.cons.injEq] at hd
  exact absurd hd.2.1 (by decide)

/-- The cache a single-resource call leaves is the old one, or the old one with the
entry of the request URL written. -/
theorem getByURL_cache_cases {α : Type} (c : client) (T : Target α) (net : List String)
    (t : Clock) (url : String) :
    (c.getByURL T net t url).cache = c.cache ∨
      ∃ body, (c.getByURL T net t url).cache = c.saveToCache t.save url body := by
  unfold client.getByURL
  rcases c.loadFromCache T t.load url T.zero with ⟨r, e⟩
  rcases c.fetchFromURL net url with ⟨res, net1⟩
  cases e with
  | none => exact Or.inl rfl
  | some e =>
    cases res with
    | error err => exact Or.inl rfl
    | ok body =>
      dsimp only
      rcases T.Unmarshal body r with ⟨v, e1⟩
      cases e1 with
      | some err => exact Or.inl rfl
      | none => exact Or.inr ⟨body, rfl⟩

/-- C16: for a fixed base URL the cache key of the single-resource calls is injective in
the kind and the identifier: two keys are equal only for the same kind and the same
identifier.  So a call for one resource leaves the cache entry under the key of every
other identifier or kind as it was: a lookup of that key, at every instant, returns what
it returned before the call. -/
theorem cache_key_injective_in_kind_and_identifier {α : Type} (T : Target α)
    (c : client) (k k2 : Kind) (a b : String) (net : List String) (t : Clock) :
    (c.resourceURL k a = c.resourceURL k2 b ↔ k = k2 ∧ a = b) ∧
    (¬ (k = k2 ∧ a = b) → ∀ now,
      (c.GetByIDOrName k T net t a).cache.bind
          (fun cache => cache.GetResponseBodyForURL now (c.resourceURL k2 b)) =
        c.cache.bind
          (fun cache => cache.GetResponseBodyForURL now (c.resourceURL k2 b))) := by
  have hinj : c.resourceURL k a = c.resourceURL k2 b ↔ k = k2 ∧ a = b := by
    constructor
    · intro h
      cases k <;> cases k2
      · exact ⟨rfl, append_left_cancel_string _ a b h⟩
      · exact absurd h (pokemonURL_ne_generationURL c a b)
      · exact absurd h.symm (pokemonURL_ne_generationURL c b a)
      · exact ⟨rfl, append_left_cancel_string _ a b h⟩
    · rintro ⟨rfl, rfl⟩
      rfl
  refine ⟨hinj, ?_⟩
  intro hne now
  have hkey : c.resourceURL k2 b ≠ c.resourceURL k a := fun h => hne (hinj.1 h.symm)
  rw [GetByIDOrName_eq]
  rcases getByURL_cache_cases c T net t (c.resourceURL k a) with h | ⟨body, h⟩
  · rw [h]
  · rw [h]
    unfold client.saveToCache
    cases c.cache with
    | none => rfl
    | some cache =>
      simp [Cache.GetResponseBodyForURL, Cache.CacheResponseForURL, hkey]

/-- Witness of C16: the call for the Pokemon `7` stores its body under the Pokemon key
and leaves the key of the generation `7` without an entry. -/
theorem cache_key_injective_in_kind_and_identifier_witness :
    ((stubClient 200 pikachuBody (some (NewCache 0))).GetByIDOrName Kind.pokemon
        IdName.target [] ⟨100, 200⟩ "7").cache.bind
        (fun cache => cache.GetResponseBodyForURL 300
          ((stubClient 200 pikachuBody (some (NewCache 0))).resourceURL
            Kind.generation "7")) =
      (stubClient 200 pikachuBody (some (NewCache 0))).cache.bind
        (fun cache => cache.GetResponseBodyForURL 300
          ((stubClient 200 pikachuBody (some (NewCache 0))).resourceURL
            Kind.generation "7")) :=
  (cache_key_injective_in_kind_and_identifier IdName.target
    (stubClient 200 pikachuBody (some (NewCache 0))) Kind.pokemon Kind.generation "7" "7"
    [] ⟨100, 200⟩).2 (by decide) 300

end pokemon
